import Mathlib

/-!
Verification of the route-server refresh-and-lookup logic of `src/bgp.py`
(class `RouteServerInteraction`).

The shallow embedding models:
  * a session record (one value of the upstream `protocols` JSON object);
  * a payload (a successfully decoded JSON body, i.e. the `protocols` table);
  * the per-endpoint mutable dict entry (`url` / `data` / `error` keys);
  * `_load_bird_data` (the refresh), `check_asn` (the scan), `parse`
    (the table renderer), `on_message` (the entry point), `_int_convert`
    (modelled as `int_convert`, Python's `int(str)` on the relevant fragment),
    and the `asns` / `ips` derived views.

Python dicts are insertion-ordered, so they are modelled as association
lists together with find/update/upsert operations that mirror dict
membership tests, in-place value replacement and end insertion.  The
network is modelled by an oracle `fetch : String → String → Outcome`
giving the outcome of the single blocking GET issued for each
(location, route-server) endpoint; exceptions are modelled with `Except`.
-/

/-- One session record of the upstream `protocols` object.  Absent JSON
keys are `none` (Python `dict.get` returning `None`). -/

structure Session where
  neighbor_as : Option Int
  description : Option String
  state : Option String
  neighbor_address : Option String
  deriving DecidableEq

/-- A successfully decoded JSON body: `{ "protocols": { id: session, ... } }`. -/

structure Payload where
  protocols : List (String × Session)
  deriving DecidableEq

/-- The per-endpoint dict entry of `self.route_servers`: the `url` key set
at construction, plus the `data` and `error` keys that `_load_bird_data`
adds in place (`data` holds the last successfully decoded body; `error`
is present, with value `True`, once a caught fetch failure has occurred). -/

structure RS where
  url : Option String
  data : Option Payload
  error : Bool
  deriving DecidableEq

/-- The whole `self.route_servers` structure: location → route-server id →

endpoint entry, insertion-ordered. -/

abbrev State := List (String × List (String × RS))

/-- Outcome of one `requests.get(url).json()` call for an endpoint whose
URL is present: a decoded body, a `requests.exceptions.ConnectionError`,
a `json.decoder.JSONDecodeError`, or any exception outside the caught
tuple (e.g. `requests.exceptions.MissingSchema`, `ReadTimeout`). -/

inductive Outcome
  | ok (p : Payload)
  | connError
  | jsonError
  | raised
  deriving DecidableEq

/-- Python exceptions that can escape the modelled code. -/

inductive PyErr
  | raisedFetch
  | keyError
  | unboundLocal
  deriving DecidableEq

/-- The row stored by `check_asn` for one matched (location, route-server):
`{'asn': ..., 'name': ..., 'state': ...}`. -/

structure Row where
  asn : Int
  name : Option String
  state : Option String
  deriving DecidableEq

/-- The nested response dict built by `check_asn`. -/

abbrev Resp := List (String × List (String × Row))

/-- Association-list lookup, mirroring Python dict indexing / `in`. -/

def alistFind {κ : Type} [DecidableEq κ] {α : Type} (k : κ) : List (κ × α) → Option α
  | [] => none
  | q :: t => if q.1 = k then some q.2 else alistFind k t

/-- Replace the value at an existing key (Python `d[k] = v` for a present
key: value replaced, position kept). -/

def alistUpdate {κ : Type} [DecidableEq κ] {α : Type} (k : κ) (v : α) :
    List (κ × α) → List (κ × α)
  | [] => []
  | q :: t => if q.1 = k then (k, v) :: t else q :: alistUpdate k v t

/-- Python `d[k] = v` / `d.update({k: v})`: replace in place if present,
else insert at the end. -/

def alistUpsert {κ : Type} [DecidableEq κ] {α : Type} (k : κ) (v : α)
    (l : List (κ × α)) : List (κ × α) :=
  match alistFind k l with
  | some _ => alistUpdate k v l
  | none => l ++ [(k, v)]

/-- Refresh of a single endpoint entry, from `_load_bird_data` lines 183-186:
`rsd['data'] = requests.get(rsd.get('url')).json()` guarded by
`except (requests.exceptions.ConnectionError, json.decoder.JSONDecodeError)`.
A `None` URL makes `requests.get` raise `MissingSchema`, which is outside
the caught tuple; so does any other uncaught exception. -/

def refreshRS (o : Outcome) (r : RS) : Except PyErr RS :=
  match r.url with
  | none => .error .raisedFetch
  | some _ =>
    match o with
    | .ok p => .ok { r with data := some p }
    | .connError => .ok { r with error := true }
    | .jsonError => .ok { r with error := true }
    | .raised => .error .raisedFetch

/-- Inner loop of `_load_bird_data` over one location's route servers. -/

def loadRSL (fetch : String → String → Outcome) (loc : String) :
    List (String × RS) → Except PyErr (List (String × RS))
  | [] => .ok []
  | q :: t =>
    match refreshRS (fetch loc q.1) q.2 with
    | .error e => .error e
    | .ok r1 =>
      match loadRSL fetch loc t with
      | .error e => .error e
      | .ok t1 => .ok ((q.1, r1) :: t1)

/-- `_load_bird_data` (lines 172-188): refresh every endpoint in iteration
order and return the updated `self.route_servers`. -/

def load_bird_data (fetch : String → String → Outcome) :
    State → Except PyErr State
  | [] => .ok []
  | p :: t =>
    match loadRSL fetch p.1 p.2 with
    | .error e => .error e
    | .ok rsl1 =>
      match load_bird_data fetch t with
      | .error e => .error e
      | .ok t1 => .ok ((p.1, rsl1) :: t1)

/-- The row `check_asn` stores for a matching session. -/

def mkRow (checked : Int) (sd : Session) : Row :=
  { asn := checked, name := sd.description, state := sd.state }

/-- The nested insertion of `check_asn` lines 130-144: create the location
entry with this route server on first match, add the route server on a
later match, and keep the first row if (location, route-server) is
already present. -/

def respInsert (loc rs : String) (row : Row) (resp : Resp) : Resp :=
  match alistFind loc resp with
  | none => resp ++ [(loc, [(rs, row)])]
  | some rsl =>
    match alistFind rs rsl with
    | some _ => resp
    | none => alistUpdate loc (rsl ++ [(rs, row)]) resp

/-- Loop of `check_asn` over one endpoint's `protocols` items. -/

def scanSessions (checked : Int) (loc rs : String) :
    List (String × Session) → Resp → Resp
  | [], resp => resp
  | e :: t, resp =>
    if e.2.neighbor_as = some checked then
      scanSessions checked loc rs t (respInsert loc rs (mkRow checked e.2) resp)
    else
      scanSessions checked loc rs t resp

/-- `check_asn` body for one endpoint: skip it when the `error` key is
present, otherwise read `rsd['data']` (a `KeyError` if absent) and scan
its `protocols`. -/

def scanRS (checked : Int) (loc rs : String) (r : RS) (resp : Resp) :
    Except PyErr Resp :=
  if r.error then .ok resp
  else
    match r.data with
    | none => .error .keyError
    | some p => .ok (scanSessions checked loc rs p.protocols resp)

/-- `check_asn` loop over one location's route servers. -/

def scanRSL (checked : Int) (loc : String) :
    List (String × RS) → Resp → Except PyErr Resp
  | [], resp => .ok resp
  | q :: t, resp =>
    match scanRS checked loc q.1 q.2 resp with
    | .error e => .error e
    | .ok resp1 => scanRSL checked loc t resp1

/-- `check_asn` loop over all locations. -/

def scanState (checked : Int) : State → Resp → Except PyErr Resp
  | [], resp => .ok resp
  | p :: t, resp =>
    match scanRSL checked p.1 p.2 resp with
    | .error e => .error e
    | .ok resp1 => scanState checked t resp1

/-- `check_asn` (lines 108-145): refresh via `get_responses` and scan the
returned data for `checked_asn`. -/

def check_asn (fetch : String → String → Outcome) (st : State)
    (checked : Int) : Except PyErr Resp :=
  match load_bird_data fetch st with
  | .error e => .error e
  | .ok snap => scanState checked snap []

/-- A rendered table row: City, Route Server, BGP State (parse line 163). -/

abbrev TRow := String × String × Option String

/-- Inner loop of `parse` over one location, threading the accumulated
table rows and the Python loop variable `route_server_data`. -/

def parseInner (loc : String) : List (String × Row) →
    List TRow × Option Row → List TRow × Option Row
  | [], acc => acc
  | q :: t, acc => parseInner loc t (acc.1 ++ [(loc, q.1, q.2.state)], some q.2)

/-- Outer loop of `parse` over all locations. -/

def parseGo : Resp → List TRow × Option Row → List TRow × Option Row
  | [], acc => acc
  | p :: t, acc => parseGo t (parseInner p.1 p.2 acc)

/-- `parse` (lines 147-170): build the table rows in iteration order and
return them with `route_server_data['name']`, the name of the last row
assigned by the loops; if the loops never ran, that read raises
(`route_server_data` unbound). -/

def parse (data : Resp) : Except PyErr (List TRow × Option String) :=
  match parseGo data ([], none) with
  | (_, none) => .error .unboundLocal
  | (rows, some r) => .ok (rows, r.name)

/-- Python `int(s)` on the fragment relevant here: strip surrounding
whitespace, an optional sign, then decimal digits with single
underscores allowed between digits. -/

def digRest (acc : Nat) : List Char → Option Nat
  | [] => some acc
  | c :: t =>
    if c.isDigit then digRest (acc * 10 + (c.toNat - 48)) t
    else if c = '_' then
      match t with
      | c2 :: t2 => if c2.isDigit then digRest (acc * 10 + (c2.toNat - 48)) t2 else none
      | [] => none
    else none

/-- Parse a stripped, unsigned digit string. -/

def digParse : List Char → Option Nat
  | [] => none
  | c :: t => if c.isDigit then digRest (c.toNat - 48) t else none

/-- Python `int(s)` (success as `some`, `ValueError` as `none`). -/

def pyIntParse (s : String) : Option Int :=
  let cs := ((s.toList.dropWhile Char.isWhitespace).reverse.dropWhile
    Char.isWhitespace).reverse
  match cs with
  | '+' :: t => (digParse t).map Int.ofNat
  | '-' :: t => (digParse t).map (fun n => -(Int.ofNat n))
  | t => (digParse t).map Int.ofNat

/-- `_int_convert` (lines 251-264): `int(item)` on success, `False` (here
`none`) on `ValueError`. -/

def int_convert (s : String) : Option Int := pyIntParse s

/-- The reply pairs `on_message` can return.  The table-string rendering
of `PrettyTable` is abstracted to the row list it is built from. -/

inductive Reply
  | invalidInput
  | cheeky
  | notFound (asn : Int)
  | table (rows : List TRow) (name : Option String)
  deriving DecidableEq

/-- The argument of `on_message`: an `int` or a `str`. -/

inductive AsnInput
  | int (n : Int)
  | str (s : String)

/-- `on_message` after input validation: the hardcoded ASN 1221 reply,
otherwise `check_asn`, the empty-result advisory, or `parse`. -/

def onMessageInt (fetch : String → String → Outcome) (st : State)
    (n : Int) : Except PyErr Reply :=
  if n = 1221 then .ok .cheeky
  else
    match check_asn fetch st n with
    | .error e => .error e
    | .ok resp =>
      if resp = [] then .ok (.notFound n)
      else
        match parse resp with
        | .error e => .error e
        | .ok pr => .ok (.table pr.1 pr.2)

/-- `on_message` (lines 71-99): convert string input with `_int_convert`,
treating a falsy result (`False` or `0`) as invalid, then dispatch. -/

def on_message (fetch : String → String → Outcome) (st : State) :
    AsnInput → Except PyErr Reply
  | .int n => onMessageInt fetch st n
  | .str s =>
    match int_convert s with
    | none => .ok .invalidInput
    | some n => if n = 0 then .ok .invalidInput else onMessageInt fetch st n

/-- `lookup_asn` of the specification as realised by the code: the
refresh-and-scan of `check_asn` plus the empty/non-empty classification
of `on_message` lines 92-99 (the input parsing, the hardcoded ASN 1221
reply and the table rendering live in `on_message` itself). -/

inductive LookupResult
  | notFound
  | found (rows : Resp)
  deriving DecidableEq

/-- The refresh-and-scan lookup (see `LookupResult`). -/

def lookup_asn (fetch : String → String → Outcome) (st : State)
    (checked : Int) : Except PyErr LookupResult :=
  match check_asn fetch st checked with
  | .error e => .error e
  | .ok resp => .ok (if resp = [] then .notFound else .found resp)

/-- One update step of the `asns` property (lines 207-218) for a session:
sessions without `neighbor_as` are skipped; otherwise the existing
location list is extended with `f'{loc} - {rs}'` and the entry is
overwritten with the session's description and the extended list. -/

def asnsStep (loc rs : String) (sd : Session)
    (acc : List (Int × (Option String × List String))) :
    List (Int × (Option String × List String)) :=
  match sd.neighbor_as with
  | none => acc
  | some a =>
    alistUpsert a
      (sd.description,
        (match alistFind a acc with
          | some e => e.2
          | none => []) ++ [loc ++ " - " ++ rs]) acc

/-- `asns` loop over one endpoint's sessions. -/

def asnsSess (loc rs : String) : List (String × Session) →
    List (Int × (Option String × List String)) →
    List (Int × (Option String × List String))
  | [], acc => acc
  | e :: t, acc => asnsSess loc rs t (asnsStep loc rs e.2 acc)

/-- `asns` handling of one endpoint: only endpoints whose `data` key is
present are scanned (the `error` key is not consulted, line 205). -/

def asnsRS (loc rs : String) (r : RS)
    (acc : List (Int × (Option String × List String))) :
    List (Int × (Option String × List String)) :=
  match r.data with
  | none => acc
  | some p => asnsSess loc rs p.protocols acc

/-- `asns` loop over one location's route servers. -/

def asnsRSL (loc : String) : List (String × RS) →
    List (Int × (Option String × List String)) →
    List (Int × (Option String × List String))
  | [], acc => acc
  | q :: t, acc => asnsRSL loc t (asnsRS loc q.1 q.2 acc)

/-- `asns` loop over all locations. -/

def asnsGo : State → List (Int × (Option String × List String)) →
    List (Int × (Option String × List String))
  | [], acc => acc
  | p :: t, acc => asnsGo t (asnsRSL p.1 p.2 acc)

/-- The `asns` property (lines 190-219). -/

def asns (st : State) : List (Int × (Option String × List String)) :=
  asnsGo st []

/-- One update step of the `ips` property (lines 237-247): sessions
without `neighbor_address` are skipped; otherwise the entry for the IP
is overwritten entirely with the session's description and the location. -/

def ipsStep (loc : String) (sd : Session)
    (acc : List (String × (Option String × String))) :
    List (String × (Option String × String)) :=
  match sd.neighbor_address with
  | none => acc
  | some ip => alistUpsert ip (sd.description, loc) acc

/-- `ips` loop over one endpoint's sessions. -/

def ipsSess (loc : String) : List (String × Session) →
    List (String × (Option String × String)) →
    List (String × (Option String × String))
  | [], acc => acc
  | e :: t, acc => ipsSess loc t (ipsStep loc e.2 acc)

/-- `ips` handling of one endpoint (again only the `data` key is
consulted, line 236). -/

def ipsRS (loc : String) (r : RS)
    (acc : List (String × (Option String × String))) :
    List (String × (Option String × String)) :=
  match r.data with
  | none => acc
  | some p => ipsSess loc p.protocols acc

/-- `ips` loop over one location's route servers. -/

def ipsRSL (loc : String) : List (String × RS) →
    List (String × (Option String × String)) →
    List (String × (Option String × String))
  | [], acc => acc
  | q :: t, acc => ipsRSL loc t (ipsRS loc q.2 acc)

/-- `ips` loop over all locations. -/

def ipsGo : State → List (String × (Option String × String)) →
    List (String × (Option String × String))
  | [], acc => acc
  | p :: t, acc => ipsGo t (ipsRSL p.1 p.2 acc)

/-- The `ips` property (lines 221-248). -/

def ips (st : State) : List (String × (Option String × String)) :=
  ipsGo st []

/-! ### Specification-side description of the scan

`rsMatchRow` reads off, for one endpoint entry, the row the claims say
`check_asn` produces: nothing for an errored endpoint, else the first
session of its table whose `neighbor_as` equals the requested ASN.
`claimRows` assembles the full response: one row per matching
(location, route-server) pair, in iteration order. -/

/-- Row the claims predict for one endpoint: none when errored or when no
session matches, else the first matching session's record. -/

def rsMatchRow (checked : Int) (r : RS) : Option Row :=
  if r.error then none
  else
    match r.data with
    | none => none
    | some p =>
      match p.protocols.find? (fun e => decide (e.2.neighbor_as = some checked)) with
      | none => none
      | some e => some (mkRow checked e.2)

/-- Rows the claims predict for one location. -/

def claimRowsRSL (checked : Int) (rsl : List (String × RS)) : List (String × Row) :=
  rsl.filterMap (fun q => (rsMatchRow checked q.2).map (fun row => (q.1, row)))

/-- The full response the claims predict: one row per matching
(location, route-server) pair, first matching session per pair, zero rows
for pairs whose table does not contain the ASN. -/

def claimRows (checked : Int) (st : State) : Resp :=
  st.filterMap (fun p =>
    if claimRowsRSL checked p.2 = [] then none
    else some (p.1, claimRowsRSL checked p.2))

/-- Lookup of a (location, route-server) slot in the response dict. -/

def slotFind (loc rs : String) (resp : Resp) : Option Row :=
  match alistFind loc resp with
  | none => none
  | some rsl => alistFind rs rsl

/-! ### Refresh characterization -/

/-- All endpoint URLs are configured (set environment variables). -/

@[reducible] def urlsPresent (st : State) : Prop :=
  ∀ p ∈ st, ∀ q ∈ p.2, q.2.url.isSome

/-- Every fetch outcome for the endpoints of `st` lies inside the caught
exception tuple or succeeds: no `MissingSchema`, timeout or other
uncaught exception. -/

@[reducible] def fetchTame (fetch : String → String → Outcome) (st : State) : Prop :=
  ∀ p ∈ st, ∀ q ∈ p.2, fetch p.1 q.1 ≠ Outcome.raised

/-- Every endpoint entry carries a `data` key or an `error` key (holds
after any refresh that returned normally). -/

@[reducible] def refreshedState (st : State) : Prop :=
  ∀ p ∈ st, ∀ q ∈ p.2, q.2.data.isSome ∨ q.2.error = true

/-- Location keys and per-location route-server keys are distinct, as they
are for Python dicts. -/

@[reducible] def keysDistinct (st : State) : Prop :=
  (st.map Prod.fst).Nodup ∧ ∀ p ∈ st, (p.2.map Prod.fst).Nodup

/-- The in-place effect of one non-raising endpoint refresh: a decoded
body replaces the `data` key, a caught exception sets the `error` key;
the other key is left as it was. -/

def refreshPure (o : Outcome) (r : RS) : RS :=
  match o with
  | .ok p => { r with data := some p }
  | _ => { r with error := true }

/-- Per-endpoint map over the whole state. -/

def mapState (f : String → String → RS → RS) (st : State) : State :=
  st.map (fun p => (p.1, p.2.map (fun q => (q.1, f p.1 q.1 q.2))))

/-! ### parse characterization -/

/-- Last element of a list, as an option (used to speak about the last
row processed in iteration order). -/

def lastO {α : Type} : List α → Option α
  | [] => none
  | a :: t =>
    match lastO t with
    | none => some a
    | some b => some b

/-- All (location, route-server, row) triples of a response, flattened in
iteration order. -/

def flatPairs : Resp → List (String × String × Row)
  | [] => []
  | p :: t => p.2.map (fun q => (p.1, q.1, q.2)) ++ flatPairs t

/-- The table rows the claims predict for `parse`: one City / Route
Server / BGP State row per response entry, in iteration order. -/

def claimTable (data : Resp) : List TRow :=
  (flatPairs data).map (fun u => (u.1, u.2.1, u.2.2.state))

/-- The caption the claims predict for `parse`: the `name` field of the
last row in iteration order (none when there is no row). -/

def claimName (data : Resp) : Option String :=
  match lastO (flatPairs data) with
  | none => none
  | some u => u.2.2.name

/-! ### asns and ips characterization -/

/-- Encounters of ASN `a` in one session list: (description, label) per
matching session, in order, with the `f'{loc} - {rs}'` label. -/

def sessEncs (loc rs : String) (a : Int) (sess : List (String × Session)) :
    List (Option String × String) :=
  sess.filterMap (fun e =>
    if e.2.neighbor_as = some a then
      some (e.2.description, loc ++ " - " ++ rs)
    else none)

/-- Encounters of ASN `a` on one endpoint as the `asns` code scans it:
only the `data` key is consulted. -/

def rsEncs (a : Int) (loc rs : String) (r : RS) : List (Option String × String) :=
  match r.data with
  | none => []
  | some p => sessEncs loc rs a p.protocols

/-- Encounters of ASN `a` over one location's route servers. -/

def rslEncs (a : Int) (loc : String) : List (String × RS) →
    List (Option String × String)
  | [] => []
  | q :: t => rsEncs a loc q.1 q.2 ++ rslEncs a loc t

/-- Encounters of ASN `a` over the whole state, in iteration order. -/

def stEncs (a : Int) : State → List (Option String × String)
  | [] => []
  | p :: t => rslEncs a p.1 p.2 ++ stEncs a t

/-- Replay of the `asns` accumulator updates restricted to one ASN:
each encounter overwrites the description and appends its label. -/

def encFold : List (Option String × String) →
    Option (Option String × List String) → Option (Option String × List String)
  | [], cur => cur
  | e :: t, cur =>
    encFold t (some (e.1,
      (match cur with
        | some c => c.2
        | none => []) ++ [e.2]))

/-- Encounters of IP `ip` in one session list: (description, location)
per session carrying that `neighbor_address`, in order. -/

def ipSessEncs (loc ip : String) (sess : List (String × Session)) :
    List (Option String × String) :=
  sess.filterMap (fun e =>
    if e.2.neighbor_address = some ip then
      some (e.2.description, loc)
    else none)

/-- Encounters of IP `ip` on one endpoint as the `ips` code scans it. -/

def ipRsEncs (ip loc : String) (r : RS) : List (Option String × String) :=
  match r.data with
  | none => []
  | some p => ipSessEncs loc ip p.protocols

/-- Encounters of IP `ip` over one location's route servers. -/

def ipRslEncs (ip loc : String) : List (String × RS) →
    List (Option String × String)
  | [] => []
  | q :: t => ipRsEncs ip loc q.2 ++ ipRslEncs ip loc t

/-- Encounters of IP `ip` over the whole state, in iteration order. -/

def ipStEncs (ip : String) : State → List (Option String × String)
  | [] => []
  | p :: t => ipRslEncs ip p.1 p.2 ++ ipStEncs ip t

/-- Last element of `l`, defaulting to `d`: the value left by a
last-write-wins replay. -/

def lastOr {α : Type} (l : List α) (d : Option α) : Option α :=
  match lastO l with
  | none => d
  | some e => some e

/-- The specification's data-model invariant: an endpoint entry never
carries a session table and the errored marker at the same time. -/

@[reducible] def neverBoth (st : State) : Prop :=
  ∀ p ∈ st, ∀ q ∈ p.2, ¬(q.2.data.isSome = true ∧ q.2.error = true)

/-- Encounters of ASN `a` on one endpoint as the claims describe the
scan: only populated (non-errored) endpoints contribute. -/

def claimRsEncs (a : Int) (loc rs : String) (r : RS) :
    List (Option String × String) :=
  match r.data with
  | none => []
  | some p => if r.error then [] else sessEncs loc rs a p.protocols

/-- Claim-side encounters of ASN `a` over one location. -/

def claimRslEncs (a : Int) (loc : String) : List (String × RS) →
    List (Option String × String)
  | [] => []
  | q :: t => claimRsEncs a loc q.1 q.2 ++ claimRslEncs a loc t

/-- Claim-side encounters of ASN `a` over the whole state. -/

def claimStEncs (a : Int) : State → List (Option String × String)
  | [] => []
  | p :: t => claimRslEncs a p.1 p.2 ++ claimStEncs a t

/-- The claims' notion of an ASN being present in the snapshot: some
session of some non-errored endpoint's table carries it as
`neighbor_as`. -/

@[reducible] def asnPresent (checked : Int) (st : State) : Prop :=
  ∃ p ∈ st, ∃ q ∈ p.2, q.2.error = false ∧
    ∃ pay, q.2.data = some pay ∧
      ∃ e ∈ pay.protocols, e.2.neighbor_as = some checked

/-! ### Concrete fixtures for witnesses and counterexamples -/

/-- The example session of the specification's concrete scenario. -/

def sessEx : Session :=
  { neighbor_as := some 64500, description := some "ExampleNet",
    state := some "Established", neighbor_address := some "203.0.113.1" }

/-- The example payload `{"protocols": {"s1": sessEx}}`. -/

def payEx : Payload := { protocols := [("s1", sessEx)] }

/-- A freshly constructed endpoint entry with a configured URL. -/

def rsFresh (u : String) : RS := { url := some u, data := none, error := false }

/-- One location with two route servers, fresh. -/

def stPair : State := [("SYD", [("rs1", rsFresh "u1"), ("rs2", rsFresh "u2")])]

/-- Two locations with one route server each, fresh. -/

def stTwo : State :=
  [("SYD", [("rs1", rsFresh "u1")]), ("MEL", [("rs1", rsFresh "u2")])]

/-- A state whose first endpoint has no URL configured. -/

def stNoUrl : State :=
  [("SYD", [("rs1", { url := none, data := none, error := false }),
    ("rs2", rsFresh "u2")])]

/-- Network behaviour: every endpoint answers with the example payload. -/

def fetchOk : String → String → Outcome := fun _ _ => .ok payEx

/-- Network behaviour: every endpoint refuses the connection. -/

def fetchConn : String → String → Outcome := fun _ _ => .connError

/-- Network behaviour: rs1 answers, rs2 refuses the connection. -/

def fetchSplit : String → String → Outcome :=
  fun _ rs => if rs = "rs1" then .ok payEx else .connError

/-- Network behaviour: SYD returns a non-JSON body, others answer. -/

def fetchMix : String → String → Outcome :=
  fun loc _ => if loc = "SYD" then .jsonError else .ok payEx

/-- The snapshot produced by refreshing `stPair` under `fetchSplit`. -/

def snapPair : State :=
  [("SYD", [("rs1", { url := some "u1", data := some payEx, error := false }),
    ("rs2", { url := some "u2", data := none, error := true })])]

/-- A two-location response dict as `check_asn` would build it. -/

def respSample : Resp :=
  [("SYD", [("rs1",
    { asn := 64500, name := some "ExampleNet",
      state := some "Established" })]),
   ("MEL", [("rs1",
    { asn := 64500, name := some "BarNet",
      state := some "Idle" })])]

/-- A session announcing 64500 described as Foo. -/

def sessFoo : Session :=
  { neighbor_as := some 64500, description := some "Foo",
    state := some "Established", neighbor_address := some "10.0.0.1" }

/-- A session announcing 64500 described as Bar. -/

def sessBar : Session :=
  { neighbor_as := some 64500, description := some "Bar",
    state := some "Idle", neighbor_address := some "10.0.0.1" }

/-- Two populated endpoints carrying the same ASN (and the same IP) with
different descriptions, in iteration order L1 then L2. -/

def stFooBar : State :=
  [("L1", [("rs1",
    { url := some "u1", data := some { protocols := [("a", sessFoo)] },
      error := false })]),
   ("L2", [("rs1",
    { url := some "u2", data := some { protocols := [("b", sessBar)] },
      error := false })])]

/-! ### Association-list lemmas -/

section AListLemmas

variable {κ : Type} [DecidableEq κ] {α : Type}

theorem alistFind_nil (k : κ) : alistFind (α := α) k [] = none := rfl

theorem alistFind_cons (k : κ) (q : κ × α) (t : List (κ × α)) :
    alistFind k (q :: t) = if q.1 = k then some q.2 else alistFind k t := rfl

theorem alistFind_append_left {k : κ} {l : List (κ × α)} {v : α}
    (h : alistFind k l = some v) (m : List (κ × α)) :
    alistFind k (l ++ m) = some v := by
  induction l with
  | nil => simp [alistFind] at h
  | cons q t ih =>
    rw [alistFind_cons] at h
    rw [List.cons_append, alistFind_cons]
    by_cases hq : q.1 = k
    · simpa [hq] using h
    · rw [if_neg hq] at h ⊢
      exact ih h

theorem alistFind_append_right {k : κ} {l : List (κ × α)}
    (h : alistFind k l = none) (m : List (κ × α)) :
    alistFind k (l ++ m) = alistFind k m := by
  induction l with
  | nil => rfl
  | cons q t ih =>
    rw [alistFind_cons] at h
    rw [List.cons_append, alistFind_cons]
    by_cases hq : q.1 = k
    · simp [hq] at h
    · rw [if_neg hq] at h ⊢
      exact ih h

theorem alistFind_append_self {k : κ} {l : List (κ × α)}
    (h : alistFind k l = none) (v : α) :
    alistFind k (l ++ [(k, v)]) = some v := by
  rw [alistFind_append_right h]
  simp [alistFind]

theorem alistFind_update_self {k : κ} {l : List (κ × α)} {v : α}
    (h : alistFind k l = some v) (w : α) :
    alistFind k (alistUpdate k w l) = some w := by
  induction l with
  | nil => simp [alistFind] at h
  | cons q t ih =>
    rw [alistFind_cons] at h
    rw [alistUpdate]
    by_cases hq : q.1 = k
    · rw [if_pos hq, alistFind_cons, if_pos rfl]
    · rw [if_neg hq] at h
      rw [if_neg hq, alistFind_cons, if_neg hq]
      exact ih h

theorem alistFind_update_other {k k' : κ} (hne : k' ≠ k) (w : α)
    (l : List (κ × α)) :
    alistFind k' (alistUpdate k w l) = alistFind k' l := by
  induction l with
  | nil => rfl
  | cons q t ih =>
    rw [alistUpdate]
    by_cases hq : q.1 = k
    · rw [if_pos hq, alistFind_cons, alistFind_cons,
        if_neg (fun h : k = k' => hne h.symm),
        if_neg (fun h : q.1 = k' => hne (h.symm.trans hq))]
    · rw [if_neg hq, alistFind_cons, alistFind_cons]
      by_cases hq' : q.1 = k'
      · rw [if_pos hq', if_pos hq']
      · rw [if_neg hq', if_neg hq', ih]

theorem alistUpdate_update (k : κ) (v w : α) (l : List (κ × α)) :
    alistUpdate k w (alistUpdate k v l) = alistUpdate k w l := by
  induction l with
  | nil => rfl
  | cons q t ih =>
    rw [alistUpdate]
    by_cases hq : q.1 = k
    · rw [if_pos hq, alistUpdate, alistUpdate, if_pos rfl, if_pos hq]
    · rw [if_neg hq, alistUpdate, if_neg hq, alistUpdate, if_neg hq, ih]

theorem alistUpdate_self_id {k : κ} {l : List (κ × α)} {v : α}
    (h : alistFind k l = some v) :
    alistUpdate k v l = l := by
  induction l with
  | nil => rfl
  | cons q t ih =>
    rw [alistFind_cons] at h
    rw [alistUpdate]
    by_cases hq : q.1 = k
    · rw [if_pos hq]
      rw [if_pos hq] at h
      obtain ⟨a, b⟩ := q
      simp only at hq
      simp only [Option.some.injEq] at h
      rw [hq, h]
    · rw [if_neg hq] at h
      rw [if_neg hq, ih h]

theorem alistUpdate_append_self {k : κ} {l : List (κ × α)}
    (h : alistFind k l = none) (v w : α) :
    alistUpdate k v (l ++ [(k, w)]) = l ++ [(k, v)] := by
  induction l with
  | nil => simp [alistUpdate]
  | cons q t ih =>
    rw [alistFind_cons] at h
    by_cases hq : q.1 = k
    · simp [hq] at h
    · rw [if_neg hq] at h
      rw [List.cons_append, alistUpdate, if_neg hq, ih h, List.cons_append]

theorem alistFind_eq_none_of_not_mem {k : κ} {l : List (κ × α)}
    (h : k ∉ l.map Prod.fst) :
    alistFind k l = none := by
  induction l with
  | nil => rfl
  | cons q t ih =>
    simp only [List.map_cons, List.mem_cons, not_or] at h
    rw [alistFind_cons, if_neg (fun he => h.1 he.symm)]
    exact ih h.2

theorem alistFind_upsert_self (k : κ) (v : α) (l : List (κ × α)) :
    alistFind k (alistUpsert k v l) = some v := by
  unfold alistUpsert
  cases h : alistFind k l with
  | none => exact alistFind_append_self h v
  | some w => exact alistFind_update_self h v

theorem alistFind_upsert_other {k k' : κ} (hne : k' ≠ k) (v : α)
    (l : List (κ × α)) :
    alistFind k' (alistUpsert k v l) = alistFind k' l := by
  unfold alistUpsert
  cases h : alistFind k l with
  | none =>
    cases hf : alistFind k' l with
    | some w => exact alistFind_append_left hf _
    | none =>
      rw [alistFind_append_right hf, alistFind_cons,
        if_neg (fun he : k = k' => hne he.symm), alistFind_nil]
  | some w => exact alistFind_update_other hne v l

end AListLemmas

theorem slotFind_of_none {loc rs : String} {resp : Resp}
    (hl : alistFind loc resp = none) :
    slotFind loc rs resp = none := by
  simp [slotFind, hl]

theorem slotFind_of_some {loc rs : String} {resp : Resp}
    {rsl : List (String × Row)} (hl : alistFind loc resp = some rsl) :
    slotFind loc rs resp = alistFind rs rsl := by
  simp [slotFind, hl]

theorem respInsert_newloc {loc : String} {resp : Resp}
    (hl : alistFind loc resp = none) (rs : String) (row : Row) :
    respInsert loc rs row resp = resp ++ [(loc, [(rs, row)])] := by
  simp [respInsert, hl]

theorem respInsert_keep {loc rs : String} {resp : Resp}
    {rsl : List (String × Row)} {w : Row}
    (hl : alistFind loc resp = some rsl) (hrs : alistFind rs rsl = some w)
    (row : Row) :
    respInsert loc rs row resp = resp := by
  simp [respInsert, hl, hrs]

theorem respInsert_extend {loc rs : String} {resp : Resp}
    {rsl : List (String × Row)}
    (hl : alistFind loc resp = some rsl) (hrs : alistFind rs rsl = none)
    (row : Row) :
    respInsert loc rs row resp = alistUpdate loc (rsl ++ [(rs, row)]) resp := by
  simp [respInsert, hl, hrs]

theorem respInsert_noop {loc rs : String} {resp : Resp} {w : Row}
    (h : slotFind loc rs resp = some w) (row : Row) :
    respInsert loc rs row resp = resp := by
  cases hl : alistFind loc resp with
  | none => rw [slotFind_of_none hl] at h; exact absurd h (by simp)
  | some rsl => exact respInsert_keep hl ((slotFind_of_some hl).symm.trans h) row

theorem scanSessions_noop {loc rs : String} {resp : Resp} {w : Row}
    (h : slotFind loc rs resp = some w) (checked : Int)
    (sess : List (String × Session)) :
    scanSessions checked loc rs sess resp = resp := by
  induction sess with
  | nil => rfl
  | cons e t ih =>
    rw [scanSessions]
    by_cases he : e.2.neighbor_as = some checked
    · rw [if_pos he, respInsert_noop h]
      exact ih
    · rw [if_neg he]
      exact ih

theorem slotFind_insert_self {loc rs : String} {resp : Resp}
    (h : slotFind loc rs resp = none) (row : Row) :
    slotFind loc rs (respInsert loc rs row resp) = some row := by
  cases hl : alistFind loc resp with
  | none =>
    rw [respInsert_newloc hl,
      slotFind_of_some (alistFind_append_self hl [(rs, row)]),
      alistFind_cons, if_pos rfl]
  | some rsl =>
    have hrs : alistFind rs rsl = none := (slotFind_of_some hl).symm.trans h
    rw [respInsert_extend hl hrs,
      slotFind_of_some (alistFind_update_self hl (rsl ++ [(rs, row)])),
      alistFind_append_self hrs]

theorem scanSessions_spec {loc rs : String} {resp : Resp}
    (h : slotFind loc rs resp = none) (checked : Int)
    (sess : List (String × Session)) :
    scanSessions checked loc rs sess resp =
      match sess.find? (fun e => decide (e.2.neighbor_as = some checked)) with
      | none => resp
      | some e => respInsert loc rs (mkRow checked e.2) resp := by
  induction sess with
  | nil => rfl
  | cons e t ih =>
    rw [scanSessions]
    by_cases he : e.2.neighbor_as = some checked
    · rw [if_pos he, List.find?_cons_of_pos _ (by simpa using he)]
      exact scanSessions_noop (slotFind_insert_self h _) checked t
    · rw [if_neg he, List.find?_cons_of_neg _ (by simpa using he)]
      exact ih

theorem rsMatchRow_of_error {r : RS} (h : r.error = true) (checked : Int) :
    rsMatchRow checked r = none := by
  simp [rsMatchRow, h]

theorem rsMatchRow_of_data {r : RS} {p : Payload} (herr : r.error = false)
    (hd : r.data = some p) (checked : Int) :
    rsMatchRow checked r =
      match p.protocols.find? (fun e => decide (e.2.neighbor_as = some checked)) with
      | none => none
      | some e => some (mkRow checked e.2) := by
  simp [rsMatchRow, herr, hd]

theorem scanRS_spec {loc rs : String} {resp : Resp} {r : RS}
    (hpop : r.data.isSome ∨ r.error = true)
    (hfree : slotFind loc rs resp = none) (checked : Int) :
    scanRS checked loc rs r resp =
      .ok (match rsMatchRow checked r with
        | none => resp
        | some row => respInsert loc rs row resp) := by
  unfold scanRS
  cases herr : r.error with
  | true => rw [if_pos rfl, rsMatchRow_of_error herr]
  | false =>
    rw [if_neg (by simp)]
    cases hd : r.data with
    | none =>
      rw [hd] at hpop
      simp [herr] at hpop
    | some p =>
      rw [rsMatchRow_of_data herr hd]
      have hscan := scanSessions_spec hfree checked p.protocols
      cases hf : p.protocols.find? (fun e => decide (e.2.neighbor_as = some checked)) with
      | none =>
        rw [hf] at hscan
        exact congrArg Except.ok hscan
      | some e =>
        rw [hf] at hscan
        exact congrArg Except.ok hscan

theorem claimRowsRSL_nil (checked : Int) : claimRowsRSL checked [] = [] := rfl

theorem claimRowsRSL_cons_none {checked : Int} {q : String × RS}
    (hm : rsMatchRow checked q.2 = none) (t : List (String × RS)) :
    claimRowsRSL checked (q :: t) = claimRowsRSL checked t := by
  simp [claimRowsRSL, List.filterMap_cons, hm]

theorem claimRowsRSL_cons_some {checked : Int} {q : String × RS} {row : Row}
    (hm : rsMatchRow checked q.2 = some row) (t : List (String × RS)) :
    claimRowsRSL checked (q :: t) = (q.1, row) :: claimRowsRSL checked t := by
  simp [claimRowsRSL, List.filterMap_cons, hm]

theorem claimRows_nil (checked : Int) : claimRows checked [] = [] := rfl

theorem claimRows_cons_nil {checked : Int} {p : String × List (String × RS)}
    (hm : claimRowsRSL checked p.2 = []) (t : State) :
    claimRows checked (p :: t) = claimRows checked t := by
  simp [claimRows, List.filterMap_cons, hm]

theorem claimRows_cons_rows {checked : Int} {p : String × List (String × RS)}
    (hm : claimRowsRSL checked p.2 ≠ []) (t : State) :
    claimRows checked (p :: t) =
      (p.1, claimRowsRSL checked p.2) :: claimRows checked t := by
  simp [claimRows, List.filterMap_cons, hm]

theorem map_fst_nodup_cons {κ α : Type} {q : κ × α} {t : List (κ × α)}
    (h : ((q :: t).map Prod.fst).Nodup) :
    q.1 ∉ t.map Prod.fst ∧ (t.map Prod.fst).Nodup := by
  rw [List.map_cons] at h
  exact List.nodup_cons.mp h

theorem scanRSL_claimed {checked : Int} {loc : String}
    (rsl : List (String × RS)) {resp : Resp} {cur : List (String × Row)}
    (hfind : alistFind loc resp = some cur)
    (hdisj : ∀ q ∈ rsl, alistFind q.1 cur = none)
    (hnd : (rsl.map Prod.fst).Nodup)
    (hpop : ∀ q ∈ rsl, q.2.data.isSome ∨ q.2.error = true) :
    scanRSL checked loc rsl resp =
      .ok (alistUpdate loc (cur ++ claimRowsRSL checked rsl) resp) := by
  induction rsl generalizing resp cur with
  | nil =>
    rw [scanRSL, claimRowsRSL_nil, List.append_nil, alistUpdate_self_id hfind]
  | cons q t ih =>
    have hq1 : alistFind q.1 cur = none := hdisj q (List.mem_cons_self q t)
    have hfree : slotFind loc q.1 resp = none := by
      rw [slotFind_of_some hfind]; exact hq1
    rw [scanRSL, scanRS_spec (hpop q (List.mem_cons_self q t)) hfree]
    have hndq : q.1 ∉ t.map Prod.fst := (map_fst_nodup_cons hnd).1
    cases hm : rsMatchRow checked q.2 with
    | none =>
      show scanRSL checked loc t resp =
        .ok (alistUpdate loc (cur ++ claimRowsRSL checked (q :: t)) resp)
      rw [claimRowsRSL_cons_none hm]
      exact ih hfind (fun q' hq' => hdisj q' (List.mem_cons_of_mem q hq'))
        (map_fst_nodup_cons hnd).2
        (fun q' hq' => hpop q' (List.mem_cons_of_mem q hq'))
    | some row =>
      show scanRSL checked loc t (respInsert loc q.1 row resp) =
        .ok (alistUpdate loc (cur ++ claimRowsRSL checked (q :: t)) resp)
      rw [respInsert_extend hfind hq1 row]
      have hfind' : alistFind loc (alistUpdate loc (cur ++ [(q.1, row)]) resp) =
          some (cur ++ [(q.1, row)]) :=
        alistFind_update_self hfind (cur ++ [(q.1, row)])
      have hdisj' : ∀ q' ∈ t, alistFind q'.1 (cur ++ [(q.1, row)]) = none := by
        intro q' hq'
        rw [alistFind_append_right (hdisj q' (List.mem_cons_of_mem q hq')),
          alistFind_cons, if_neg, alistFind_nil]
        intro he
        exact hndq (he ▸ List.mem_map_of_mem Prod.fst hq')
      rw [ih hfind' hdisj'
        (map_fst_nodup_cons hnd).2
        (fun q' hq' => hpop q' (List.mem_cons_of_mem q hq')),
        alistUpdate_update, claimRowsRSL_cons_some hm, List.append_assoc,
        List.singleton_append]

theorem scanRSL_free {checked : Int} {loc : String}
    (rsl : List (String × RS)) {resp : Resp}
    (hfree : alistFind loc resp = none)
    (hnd : (rsl.map Prod.fst).Nodup)
    (hpop : ∀ q ∈ rsl, q.2.data.isSome ∨ q.2.error = true) :
    scanRSL checked loc rsl resp =
      .ok (if claimRowsRSL checked rsl = [] then resp
        else resp ++ [(loc, claimRowsRSL checked rsl)]) := by
  induction rsl generalizing resp with
  | nil => rw [scanRSL, claimRowsRSL_nil, if_pos rfl]
  | cons q t ih =>
    rw [scanRSL, scanRS_spec (hpop q (List.mem_cons_self q t))
      (slotFind_of_none hfree)]
    have hndq : q.1 ∉ t.map Prod.fst := (map_fst_nodup_cons hnd).1
    cases hm : rsMatchRow checked q.2 with
    | none =>
      show scanRSL checked loc t resp =
        .ok (if claimRowsRSL checked (q :: t) = [] then resp
          else resp ++ [(loc, claimRowsRSL checked (q :: t))])
      rw [claimRowsRSL_cons_none hm]
      exact ih hfree (map_fst_nodup_cons hnd).2
        (fun q' hq' => hpop q' (List.mem_cons_of_mem q hq'))
    | some row =>
      show scanRSL checked loc t (respInsert loc q.1 row resp) =
        .ok (if claimRowsRSL checked (q :: t) = [] then resp
          else resp ++ [(loc, claimRowsRSL checked (q :: t))])
      rw [respInsert_newloc hfree q.1 row]
      have hfind' : alistFind loc (resp ++ [(loc, [(q.1, row)])]) =
          some [(q.1, row)] := alistFind_append_self hfree [(q.1, row)]
      have hdisj' : ∀ q' ∈ t, alistFind q'.1 [(q.1, row)] = none := by
        intro q' hq'
        rw [alistFind_cons, if_neg, alistFind_nil]
        intro he
        exact hndq (he ▸ List.mem_map_of_mem Prod.fst hq')
      rw [scanRSL_claimed t hfind' hdisj'
        (map_fst_nodup_cons hnd).2
        (fun q' hq' => hpop q' (List.mem_cons_of_mem q hq')),
        alistUpdate_append_self hfree, claimRowsRSL_cons_some hm,
        List.singleton_append, if_neg (List.cons_ne_nil _ _)]

theorem scanState_spec {checked : Int} (st : State) {resp : Resp}
    (hout : ∀ p ∈ st, alistFind p.1 resp = none)
    (hnd : (st.map Prod.fst).Nodup)
    (hndin : ∀ p ∈ st, (p.2.map Prod.fst).Nodup)
    (hpop : ∀ p ∈ st, ∀ q ∈ p.2, q.2.data.isSome ∨ q.2.error = true) :
    scanState checked st resp = .ok (resp ++ claimRows checked st) := by
  induction st generalizing resp with
  | nil => rw [scanState, claimRows_nil, List.append_nil]
  | cons p t ih =>
    rw [scanState, scanRSL_free p.2 (hout p (List.mem_cons_self p t))
      (hndin p (List.mem_cons_self p t)) (hpop p (List.mem_cons_self p t))]
    have hndp : p.1 ∉ t.map Prod.fst := (map_fst_nodup_cons hnd).1
    by_cases hempty : claimRowsRSL checked p.2 = []
    · show scanState checked t
        (if claimRowsRSL checked p.2 = [] then resp
          else resp ++ [(p.1, claimRowsRSL checked p.2)]) =
        .ok (resp ++ claimRows checked (p :: t))
      rw [if_pos hempty, claimRows_cons_nil hempty]
      exact ih (fun p' hp' => hout p' (List.mem_cons_of_mem p hp'))
        (map_fst_nodup_cons hnd).2
        (fun p' hp' => hndin p' (List.mem_cons_of_mem p hp'))
        (fun p' hp' => hpop p' (List.mem_cons_of_mem p hp'))
    · show scanState checked t
        (if claimRowsRSL checked p.2 = [] then resp
          else resp ++ [(p.1, claimRowsRSL checked p.2)]) =
        .ok (resp ++ claimRows checked (p :: t))
      rw [if_neg hempty, claimRows_cons_rows hempty]
      have hout' : ∀ p' ∈ t,
          alistFind p'.1 (resp ++ [(p.1, claimRowsRSL checked p.2)]) = none := by
        intro p' hp'
        rw [alistFind_append_right (hout p' (List.mem_cons_of_mem p hp')),
          alistFind_cons, if_neg, alistFind_nil]
        intro he
        exact hndp (he ▸ List.mem_map_of_mem Prod.fst hp')
      rw [ih hout'
        (map_fst_nodup_cons hnd).2
        (fun p' hp' => hndin p' (List.mem_cons_of_mem p hp'))
        (fun p' hp' => hpop p' (List.mem_cons_of_mem p hp')),
        List.append_assoc, List.singleton_append]

theorem refreshRS_ok {o : Outcome} {r : RS} (hurl : r.url.isSome)
    (ho : o ≠ Outcome.raised) :
    refreshRS o r = .ok (refreshPure o r) := by
  unfold refreshRS refreshPure
  cases hu : r.url with
  | none => rw [hu] at hurl; exact absurd hurl (by simp)
  | some u =>
    cases o with
    | ok p => rfl
    | connError => rfl
    | jsonError => rfl
    | raised => exact absurd rfl ho

theorem loadRSL_eq_map {fetch : String → String → Outcome} {loc : String}
    (rsl : List (String × RS)) (hurl : ∀ q ∈ rsl, q.2.url.isSome)
    (htame : ∀ q ∈ rsl, fetch loc q.1 ≠ Outcome.raised) :
    loadRSL fetch loc rsl =
      .ok (rsl.map (fun q => (q.1, refreshPure (fetch loc q.1) q.2))) := by
  induction rsl with
  | nil => rfl
  | cons q t ih =>
    rw [loadRSL, refreshRS_ok (hurl q (List.mem_cons_self q t))
        (htame q (List.mem_cons_self q t)),
      ih (fun q' hq' => hurl q' (List.mem_cons_of_mem q hq'))
        (fun q' hq' => htame q' (List.mem_cons_of_mem q hq')),
      List.map_cons]

theorem load_eq_map {fetch : String → String → Outcome} (st : State)
    (hurl : urlsPresent st) (htame : fetchTame fetch st) :
    load_bird_data fetch st =
      .ok (mapState (fun loc rs r => refreshPure (fetch loc rs) r) st) := by
  induction st with
  | nil => rfl
  | cons p t ih =>
    rw [load_bird_data, loadRSL_eq_map p.2 (hurl p (List.mem_cons_self p t))
        (htame p (List.mem_cons_self p t)),
      ih (fun p' hp' => hurl p' (List.mem_cons_of_mem p hp'))
        (fun p' hp' => htame p' (List.mem_cons_of_mem p hp'))]
    rfl

theorem refreshRS_ok_shape {o : Outcome} {r r1 : RS}
    (h : refreshRS o r = .ok r1) :
    r1.data.isSome ∨ r1.error = true := by
  unfold refreshRS at h
  cases hu : r.url with
  | none => rw [hu] at h; exact absurd h (by simp)
  | some u =>
    rw [hu] at h
    cases o with
    | ok p => simp at h; rw [← h]; simp
    | connError => simp at h; rw [← h]; simp
    | jsonError => simp at h; rw [← h]; simp
    | raised => simp at h

theorem loadRSL_ok_shape {fetch : String → String → Outcome} {loc : String}
    {rsl rsl' : List (String × RS)}
    (h : loadRSL fetch loc rsl = .ok rsl') :
    rsl'.map Prod.fst = rsl.map Prod.fst ∧
    ∀ q ∈ rsl', q.2.data.isSome ∨ q.2.error = true := by
  induction rsl generalizing rsl' with
  | nil =>
    rw [loadRSL] at h
    simp only [Except.ok.injEq] at h
    subst h
    exact ⟨rfl, by simp⟩
  | cons q t ih =>
    rw [loadRSL] at h
    cases hr : refreshRS (fetch loc q.1) q.2 with
    | error e => rw [hr] at h; simp at h
    | ok r1 =>
      rw [hr] at h
      cases hl : loadRSL fetch loc t with
      | error e => rw [hl] at h; simp at h
      | ok t1 =>
        rw [hl] at h
        simp only [Except.ok.injEq] at h
        subst h
        obtain ⟨hk, hq⟩ := ih hl
        refine ⟨by simp [hk], ?_⟩
        intro q' hq'
        rcases List.mem_cons.mp hq' with he | hm
        · subst he; exact refreshRS_ok_shape hr
        · exact hq q' hm

theorem load_ok_shape {fetch : String → String → Outcome} {st st' : State}
    (h : load_bird_data fetch st = .ok st') :
    st'.map Prod.fst = st.map Prod.fst ∧
    (∀ p' ∈ st', ∃ p ∈ st, p'.2.map Prod.fst = p.2.map Prod.fst) ∧
    refreshedState st' := by
  induction st generalizing st' with
  | nil =>
    rw [load_bird_data] at h
    simp only [Except.ok.injEq] at h
    subst h
    exact ⟨rfl, by simp, by intro p hp; simp at hp⟩
  | cons p t ih =>
    rw [load_bird_data] at h
    cases hr : loadRSL fetch p.1 p.2 with
    | error e => rw [hr] at h; simp at h
    | ok rsl1 =>
      rw [hr] at h
      cases hl : load_bird_data fetch t with
      | error e => rw [hl] at h; simp at h
      | ok t1 =>
        rw [hl] at h
        simp only [Except.ok.injEq] at h
        subst h
        obtain ⟨hok, hoin, hopop⟩ := ih hl
        obtain ⟨hrk, hrpop⟩ := loadRSL_ok_shape hr
        refine ⟨by simp [hok], ?_, ?_⟩
        · intro p' hp'
          rcases List.mem_cons.mp hp' with he | hm
          · subst he
            exact ⟨p, List.mem_cons_self p t, hrk⟩
          · obtain ⟨p0, hp0, hkeq⟩ := hoin p' hm
            exact ⟨p0, List.mem_cons_of_mem p hp0, hkeq⟩
        · intro p' hp'
          rcases List.mem_cons.mp hp' with he | hm
          · subst he
            exact hrpop
          · exact hopop p' hm

theorem load_ok_keysDistinct {fetch : String → String → Outcome}
    {st st' : State} (h : load_bird_data fetch st = .ok st')
    (hk : keysDistinct st) : keysDistinct st' := by
  obtain ⟨hout, hin, _⟩ := load_ok_shape h
  refine ⟨by rw [hout]; exact hk.1, ?_⟩
  intro p' hp'
  obtain ⟨p, hp, hkeq⟩ := hin p' hp'
  rw [hkeq]
  exact hk.2 p hp

theorem lastO_nil {α : Type} : lastO (α := α) [] = none := rfl

theorem lastO_cons {α : Type} (a : α) (t : List α) :
    lastO (a :: t) =
      match lastO t with
      | none => some a
      | some b => some b := rfl

theorem lastO_eq_none_iff {α : Type} (l : List α) :
    lastO l = none ↔ l = [] := by
  cases l with
  | nil => simp [lastO]
  | cons a t =>
    rw [lastO_cons]
    constructor
    · intro h
      cases hl : lastO t <;> rw [hl] at h <;> simp at h
    · intro h
      simp at h

theorem lastO_append {α : Type} (l m : List α) :
    lastO (l ++ m) =
      match lastO m with
      | none => lastO l
      | some b => some b := by
  induction l with
  | nil =>
    rw [List.nil_append]
    cases lastO m <;> rfl
  | cons a t ih =>
    rw [List.cons_append, lastO_cons, ih, lastO_cons]
    cases lastO m <;> cases lastO t <;> rfl

theorem lastO_map {α β : Type} (f : α → β) (l : List α) :
    lastO (l.map f) = (lastO l).map f := by
  induction l with
  | nil => rfl
  | cons a t ih =>
    rw [List.map_cons, lastO_cons, lastO_cons, ih]
    cases lastO t <;> rfl

theorem lastO_isSome_of_ne_nil {α : Type} {l : List α} (h : l ≠ []) :
    ∃ a, lastO l = some a := by
  cases hl : lastO l with
  | none => exact absurd ((lastO_eq_none_iff l).mp hl) h
  | some a => exact ⟨a, rfl⟩

theorem flatPairs_nil : flatPairs [] = [] := rfl

theorem flatPairs_cons (p : String × List (String × Row)) (t : Resp) :
    flatPairs (p :: t) = p.2.map (fun q => (p.1, q.1, q.2)) ++ flatPairs t := rfl

theorem parseInner_spec (loc : String) (rsl : List (String × Row))
    (acc : List TRow) (l0 : Option Row) :
    parseInner loc rsl (acc, l0) =
      (acc ++ rsl.map (fun q => (loc, q.1, q.2.state)),
        match lastO (rsl.map (fun q => q.2)) with
        | none => l0
        | some r => some r) := by
  induction rsl generalizing acc l0 with
  | nil => simp [parseInner, lastO]
  | cons q t ih =>
    rw [parseInner, ih, List.map_cons, List.map_cons, lastO_cons]
    cases lastO (t.map (fun q => q.2)) <;> simp

theorem claimTable_cons (p : String × List (String × Row)) (t : Resp) :
    claimTable (p :: t) =
      p.2.map (fun q => (p.1, q.1, q.2.state)) ++ claimTable t := by
  rw [claimTable, claimTable, flatPairs_cons, List.map_append, List.map_map]
  rfl

theorem parseGo_spec (data : Resp) (acc : List TRow) (l0 : Option Row) :
    parseGo data (acc, l0) =
      (acc ++ claimTable data,
        match lastO ((flatPairs data).map (fun u => u.2.2)) with
        | none => l0
        | some r => some r) := by
  induction data generalizing acc l0 with
  | nil => simp [parseGo, claimTable, flatPairs, lastO]
  | cons p t ih =>
    rw [parseGo, parseInner_spec, ih]
    have hmap2 : (p.2.map (fun q => (p.1, q.1, q.2))).map (fun u => u.2.2) =
        p.2.map (fun q => q.2) := by
      rw [List.map_map]; rfl
    rw [Prod.mk.injEq]
    refine ⟨?_, ?_⟩
    · rw [claimTable_cons, List.append_assoc]
    · rw [flatPairs_cons, List.map_append, lastO_append, hmap2]
      cases lastO ((flatPairs t).map (fun u => u.2.2)) <;>
        cases lastO (p.2.map (fun q => q.2)) <;> rfl

theorem parse_spec {data : Resp} (h : flatPairs data ≠ []) :
    parse data = .ok (claimTable data, claimName data) := by
  unfold parse
  rw [parseGo_spec]
  obtain ⟨u, hu⟩ := lastO_isSome_of_ne_nil h
  have hm : lastO ((flatPairs data).map (fun u => u.2.2)) = some u.2.2 := by
    rw [lastO_map, hu]; rfl
  rw [hm]
  show Except.ok ([] ++ claimTable data, u.2.2.name) = _
  rw [List.nil_append]
  unfold claimName
  rw [hu]

theorem encFold_nil (cur : Option (Option String × List String)) :
    encFold [] cur = cur := rfl

theorem encFold_cons (e : Option String × String)
    (t : List (Option String × String))
    (cur : Option (Option String × List String)) :
    encFold (e :: t) cur =
      encFold t (some (e.1,
        (match cur with
          | some c => c.2
          | none => []) ++ [e.2])) := rfl

theorem encFold_append (l m : List (Option String × String))
    (cur : Option (Option String × List String)) :
    encFold (l ++ m) cur = encFold m (encFold l cur) := by
  induction l generalizing cur with
  | nil => rfl
  | cons e t ih => rw [List.cons_append, encFold_cons, encFold_cons, ih]

theorem encFold_spec (encs : List (Option String × String))
    (cur : Option (Option String × List String)) :
    encFold encs cur =
      match lastO encs with
      | none => cur
      | some e =>
        some (e.1,
          (match cur with
            | some c => c.2
            | none => []) ++ encs.map (fun x => x.2)) := by
  induction encs generalizing cur with
  | nil => rfl
  | cons e t ih =>
    rw [encFold_cons, ih, lastO_cons]
    cases hl : lastO t with
    | none =>
      have ht : t = [] := (lastO_eq_none_iff t).mp hl
      subst ht
      rfl
    | some x =>
      rw [List.map_cons]
      cases cur <;> simp [List.append_assoc]

theorem asnsStep_find_match {loc rs : String} {a : Int} {sd : Session}
    (he : sd.neighbor_as = some a) (acc : List (Int × (Option String × List String))) :
    alistFind a (asnsStep loc rs sd acc) =
      some (sd.description,
        (match alistFind a acc with
          | some c => c.2
          | none => []) ++ [loc ++ " - " ++ rs]) := by
  simp only [asnsStep, he]
  exact alistFind_upsert_self _ _ _

theorem asnsStep_find_other {loc rs : String} {a : Int} {sd : Session}
    (he : ¬(sd.neighbor_as = some a)) (acc : List (Int × (Option String × List String))) :
    alistFind a (asnsStep loc rs sd acc) = alistFind a acc := by
  unfold asnsStep
  cases hn : sd.neighbor_as with
  | none => rfl
  | some b =>
    have hb : b ≠ a := fun h => he (by rw [hn, h])
    exact alistFind_upsert_other (fun h => hb h.symm) _ acc

theorem asnsSess_find (loc rs : String) (a : Int)
    (sess : List (String × Session)) (acc : List (Int × (Option String × List String))) :
    alistFind a (asnsSess loc rs sess acc) =
      encFold (sessEncs loc rs a sess) (alistFind a acc) := by
  induction sess generalizing acc with
  | nil => rfl
  | cons e t ih =>
    rw [asnsSess]
    by_cases he : e.2.neighbor_as = some a
    · have hencs : sessEncs loc rs a (e :: t) =
          (e.2.description, loc ++ " - " ++ rs) :: sessEncs loc rs a t := by
        simp [sessEncs, List.filterMap_cons, he]
      rw [hencs, encFold_cons, ih, asnsStep_find_match he]
    · have hencs : sessEncs loc rs a (e :: t) = sessEncs loc rs a t := by
        simp [sessEncs, List.filterMap_cons, he]
      rw [hencs, ih, asnsStep_find_other he]

theorem asnsRS_find (loc rs : String) (a : Int) (r : RS)
    (acc : List (Int × (Option String × List String))) :
    alistFind a (asnsRS loc rs r acc) =
      encFold (rsEncs a loc rs r) (alistFind a acc) := by
  unfold asnsRS rsEncs
  cases r.data with
  | none => rfl
  | some p => exact asnsSess_find loc rs a p.protocols acc

theorem asnsRSL_find (loc : String) (a : Int) (rsl : List (String × RS))
    (acc : List (Int × (Option String × List String))) :
    alistFind a (asnsRSL loc rsl acc) =
      encFold (rslEncs a loc rsl) (alistFind a acc) := by
  induction rsl generalizing acc with
  | nil => rfl
  | cons q t ih =>
    rw [asnsRSL, rslEncs, encFold_append, ih, asnsRS_find]

theorem asnsGo_find (a : Int) (st : State)
    (acc : List (Int × (Option String × List String))) :
    alistFind a (asnsGo st acc) = encFold (stEncs a st) (alistFind a acc) := by
  induction st generalizing acc with
  | nil => rfl
  | cons p t ih =>
    rw [asnsGo, stEncs, encFold_append, ih, asnsRSL_find]

theorem asns_find (a : Int) (st : State) :
    alistFind a (asns st) = encFold (stEncs a st) none := by
  rw [asns, asnsGo_find]
  rfl

theorem lastOr_nil {α : Type} (d : Option α) : lastOr [] d = d := rfl

theorem lastOr_cons {α : Type} (x : α) (l : List α) (d : Option α) :
    lastOr (x :: l) d = lastOr l (some x) := by
  unfold lastOr
  rw [lastO_cons]
  cases lastO l <;> rfl

theorem lastOr_append {α : Type} (l m : List α) (d : Option α) :
    lastOr (l ++ m) d = lastOr m (lastOr l d) := by
  unfold lastOr
  rw [lastO_append]
  cases lastO m <;> cases lastO l <;> rfl

theorem ipsStep_find_match {loc ip : String} {sd : Session}
    (he : sd.neighbor_address = some ip)
    (acc : List (String × (Option String × String))) :
    alistFind ip (ipsStep loc sd acc) = some (sd.description, loc) := by
  simp only [ipsStep, he]
  exact alistFind_upsert_self _ _ _

theorem ipsStep_find_other {loc ip : String} {sd : Session}
    (he : ¬(sd.neighbor_address = some ip))
    (acc : List (String × (Option String × String))) :
    alistFind ip (ipsStep loc sd acc) = alistFind ip acc := by
  unfold ipsStep
  cases hn : sd.neighbor_address with
  | none => rfl
  | some b =>
    have hb : b ≠ ip := fun h => he (by rw [hn, h])
    exact alistFind_upsert_other (fun h => hb h.symm) _ acc

theorem ipsSess_find (loc ip : String) (sess : List (String × Session))
    (acc : List (String × (Option String × String))) :
    alistFind ip (ipsSess loc sess acc) =
      lastOr (ipSessEncs loc ip sess) (alistFind ip acc) := by
  induction sess generalizing acc with
  | nil => rfl
  | cons e t ih =>
    rw [ipsSess]
    by_cases he : e.2.neighbor_address = some ip
    · have hencs : ipSessEncs loc ip (e :: t) =
          (e.2.description, loc) :: ipSessEncs loc ip t := by
        simp [ipSessEncs, List.filterMap_cons, he]
      rw [hencs, lastOr_cons, ih, ipsStep_find_match he]
    · have hencs : ipSessEncs loc ip (e :: t) = ipSessEncs loc ip t := by
        simp [ipSessEncs, List.filterMap_cons, he]
      rw [hencs, ih, ipsStep_find_other he]

theorem ipsRS_find (loc ip : String) (r : RS)
    (acc : List (String × (Option String × String))) :
    alistFind ip (ipsRS loc r acc) =
      lastOr (ipRsEncs ip loc r) (alistFind ip acc) := by
  unfold ipsRS ipRsEncs
  cases r.data with
  | none => rfl
  | some p => exact ipsSess_find loc ip p.protocols acc

theorem ipsRSL_find (loc ip : String) (rsl : List (String × RS))
    (acc : List (String × (Option String × String))) :
    alistFind ip (ipsRSL loc rsl acc) =
      lastOr (ipRslEncs ip loc rsl) (alistFind ip acc) := by
  induction rsl generalizing acc with
  | nil => rfl
  | cons q t ih =>
    rw [ipsRSL, ipRslEncs, lastOr_append, ih, ipsRS_find]

theorem ipsGo_find (ip : String) (st : State)
    (acc : List (String × (Option String × String))) :
    alistFind ip (ipsGo st acc) =
      lastOr (ipStEncs ip st) (alistFind ip acc) := by
  induction st generalizing acc with
  | nil => rfl
  | cons p t ih =>
    rw [ipsGo, ipStEncs, lastOr_append, ih, ipsRSL_find]

theorem ips_find (ip : String) (st : State) :
    alistFind ip (ips st) = lastO (ipStEncs ip st) := by
  rw [ips, ipsGo_find]
  unfold lastOr
  cases lastO (ipStEncs ip st) <;> rfl

theorem claimRsEncs_eq {a : Int} {loc rs : String} {r : RS}
    (h : ¬(r.data.isSome = true ∧ r.error = true)) :
    claimRsEncs a loc rs r = rsEncs a loc rs r := by
  unfold claimRsEncs rsEncs
  cases hd : r.data with
  | none => rfl
  | some p =>
    rw [hd] at h
    have herr : r.error = false := by
      cases he : r.error
      · rfl
      · exact absurd ⟨by simp, he⟩ h
    rw [herr]
    rfl

theorem claimRslEncs_eq {a : Int} {loc : String} {rsl : List (String × RS)}
    (h : ∀ q ∈ rsl, ¬(q.2.data.isSome = true ∧ q.2.error = true)) :
    claimRslEncs a loc rsl = rslEncs a loc rsl := by
  induction rsl with
  | nil => rfl
  | cons q t ih =>
    rw [claimRslEncs, rslEncs, claimRsEncs_eq (h q (List.mem_cons_self q t)),
      ih (fun q' hq' => h q' (List.mem_cons_of_mem q hq'))]

theorem claimStEncs_eq {a : Int} {st : State} (h : neverBoth st) :
    claimStEncs a st = stEncs a st := by
  induction st with
  | nil => rfl
  | cons p t ih =>
    rw [claimStEncs, stEncs,
      ih (fun p' hp' => h p' (List.mem_cons_of_mem p hp')),
      claimRslEncs_eq (h p (List.mem_cons_self p t))]

/-! ### Pipeline lemmas -/

theorem check_asn_ok {fetch : String → String → Outcome} {st snap : State}
    (checked : Int) (hk : keysDistinct st)
    (hl : load_bird_data fetch st = .ok snap) :
    check_asn fetch st checked = .ok (claimRows checked snap) := by
  unfold check_asn
  rw [hl]
  show scanState checked snap [] = .ok (claimRows checked snap)
  obtain ⟨hkd1, hkd2⟩ := load_ok_keysDistinct hl hk
  obtain ⟨-, -, hpop⟩ := load_ok_shape hl
  rw [scanState_spec snap (fun p _ => alistFind_nil p.1) hkd1 hkd2 hpop,
    List.nil_append]

theorem lookup_asn_ok {fetch : String → String → Outcome} {st snap : State}
    (checked : Int) (hk : keysDistinct st)
    (hl : load_bird_data fetch st = .ok snap) :
    lookup_asn fetch st checked =
      .ok (if claimRows checked snap = [] then .notFound
        else .found (claimRows checked snap)) := by
  unfold lookup_asn
  rw [check_asn_ok checked hk hl]

theorem rsMatchRow_isSome_iff (checked : Int) (r : RS) :
    (rsMatchRow checked r).isSome = true ↔
      (r.error = false ∧ ∃ pay, r.data = some pay ∧
        ∃ e ∈ pay.protocols, e.2.neighbor_as = some checked) := by
  unfold rsMatchRow
  cases herr : r.error with
  | true => simp
  | false =>
    rw [if_neg (by simp)]
    cases hd : r.data with
    | none => simp
    | some pay =>
      simp only [Option.some.injEq, true_and]
      constructor
      · intro h
        cases hf : pay.protocols.find?
            (fun e => decide (e.2.neighbor_as = some checked)) with
        | none => rw [hf] at h; simp at h
        | some e =>
          refine ⟨pay, rfl, e, List.mem_of_find?_eq_some hf, ?_⟩
          have := List.find?_some hf
          simpa using this
      · rintro ⟨pay', hpay, e, he, has⟩
        subst hpay
        cases hf : pay.protocols.find?
            (fun e => decide (e.2.neighbor_as = some checked)) with
        | none =>
          rw [List.find?_eq_none] at hf
          exact absurd (by simpa using has) (by simpa using hf e he)
        | some e' => simp

theorem rsMatchRow_eq_none_iff (checked : Int) (r : RS) :
    rsMatchRow checked r = none ↔
      ¬(r.error = false ∧ ∃ pay, r.data = some pay ∧
        ∃ e ∈ pay.protocols, e.2.neighbor_as = some checked) := by
  rw [← rsMatchRow_isSome_iff checked r]
  cases rsMatchRow checked r <;> simp

theorem claimRowsRSL_eq_nil_iff (checked : Int) (rsl : List (String × RS)) :
    claimRowsRSL checked rsl = [] ↔
      ∀ q ∈ rsl, rsMatchRow checked q.2 = none := by
  simp [claimRowsRSL, List.filterMap_eq_nil_iff, Option.map_eq_none']

theorem claimRows_eq_nil_iff (checked : Int) (st : State) :
    claimRows checked st = [] ↔
      ∀ p ∈ st, ∀ q ∈ p.2, rsMatchRow checked q.2 = none := by
  unfold claimRows
  rw [List.filterMap_eq_nil_iff]
  constructor
  · intro h p hp
    have hp' := h p hp
    by_cases hc : claimRowsRSL checked p.2 = []
    · exact (claimRowsRSL_eq_nil_iff checked p.2).mp hc
    · rw [if_neg hc] at hp'
      simp at hp'
  · intro h p hp
    rw [if_pos ((claimRowsRSL_eq_nil_iff checked p.2).mpr (h p hp))]

theorem claimRows_ne_nil_iff (checked : Int) (st : State) :
    claimRows checked st ≠ [] ↔ asnPresent checked st := by
  rw [Ne, claimRows_eq_nil_iff]
  unfold asnPresent
  constructor
  · intro h
    by_contra hne
    apply h
    intro p hp q hq
    rw [rsMatchRow_eq_none_iff]
    intro hc
    exact hne ⟨p, hp, q, hq, hc⟩
  · rintro ⟨p, hp, q, hq, hc⟩ h
    have := h p hp q hq
    rw [rsMatchRow_eq_none_iff] at this
    exact this hc

theorem claimRowsRSL_find_not_mem {checked : Int} {rs : String}
    {rsl : List (String × RS)} (h : rs ∉ rsl.map Prod.fst) :
    alistFind rs (claimRowsRSL checked rsl) = none := by
  induction rsl with
  | nil => rfl
  | cons q t ih =>
    simp only [List.map_cons, List.mem_cons, not_or] at h
    cases hm : rsMatchRow checked q.2 with
    | none => rw [claimRowsRSL_cons_none hm]; exact ih h.2
    | some row =>
      rw [claimRowsRSL_cons_some hm, alistFind_cons,
        if_neg (fun he => h.1 he.symm)]
      exact ih h.2

theorem claimRows_find_not_mem {checked : Int} {loc : String} {st : State}
    (h : loc ∉ st.map Prod.fst) :
    alistFind loc (claimRows checked st) = none := by
  induction st with
  | nil => rfl
  | cons p t ih =>
    simp only [List.map_cons, List.mem_cons, not_or] at h
    by_cases hc : claimRowsRSL checked p.2 = []
    · rw [claimRows_cons_nil hc]; exact ih h.2
    · rw [claimRows_cons_rows hc, alistFind_cons,
        if_neg (fun he => h.1 he.symm)]
      exact ih h.2

theorem claimRowsRSL_find {checked : Int} {rsl : List (String × RS)}
    (hnd : (rsl.map Prod.fst).Nodup) (rs : String) :
    alistFind rs (claimRowsRSL checked rsl) =
      match alistFind rs rsl with
      | none => none
      | some r => rsMatchRow checked r := by
  induction rsl with
  | nil => rfl
  | cons q t ih =>
    obtain ⟨hq, hnd'⟩ := map_fst_nodup_cons hnd
    by_cases he : q.1 = rs
    · subst he
      rw [alistFind_cons, if_pos rfl]
      cases hm : rsMatchRow checked q.2 with
      | none =>
        rw [claimRowsRSL_cons_none hm, claimRowsRSL_find_not_mem hq]
        exact hm.symm
      | some row =>
        rw [claimRowsRSL_cons_some hm, alistFind_cons, if_pos rfl]
        exact hm.symm
    · rw [alistFind_cons, if_neg he]
      cases hm : rsMatchRow checked q.2 with
      | none => rw [claimRowsRSL_cons_none hm]; exact ih hnd'
      | some row =>
        rw [claimRowsRSL_cons_some hm, alistFind_cons, if_neg he]
        exact ih hnd'

theorem claimRows_find {checked : Int} {st : State}
    (hnd : (st.map Prod.fst).Nodup) (loc : String) :
    alistFind loc (claimRows checked st) =
      match alistFind loc st with
      | none => none
      | some rsl =>
        if claimRowsRSL checked rsl = [] then none
        else some (claimRowsRSL checked rsl) := by
  induction st with
  | nil => rfl
  | cons p t ih =>
    obtain ⟨hp, hnd'⟩ := map_fst_nodup_cons hnd
    by_cases he : p.1 = loc
    · subst he
      rw [alistFind_cons, if_pos rfl]
      show alistFind p.1 (claimRows checked (p :: t)) =
        if claimRowsRSL checked p.2 = [] then none
        else some (claimRowsRSL checked p.2)
      by_cases hc : claimRowsRSL checked p.2 = []
      · rw [claimRows_cons_nil hc, if_pos hc]
        exact claimRows_find_not_mem hp
      · rw [claimRows_cons_rows hc, if_neg hc, alistFind_cons, if_pos rfl]
    · rw [alistFind_cons, if_neg he]
      by_cases hc : claimRowsRSL checked p.2 = []
      · rw [claimRows_cons_nil hc]; exact ih hnd'
      · rw [claimRows_cons_rows hc, alistFind_cons, if_neg he]
        exact ih hnd'

theorem claimRows_inners_ne_nil (checked : Int) (st : State) :
    ∀ p ∈ claimRows checked st, p.2 ≠ [] := by
  induction st with
  | nil => intro p hp; simp [claimRows] at hp
  | cons p t ih =>
    intro p' hp'
    by_cases hc : claimRowsRSL checked p.2 = []
    · rw [claimRows_cons_nil hc] at hp'
      exact ih p' hp'
    · rw [claimRows_cons_rows hc] at hp'
      rcases List.mem_cons.mp hp' with he | hm
      · subst he; exact hc
      · exact ih p' hm

theorem flatPairs_ne_nil {data : Resp} (h : data ≠ [])
    (hin : ∀ p ∈ data, p.2 ≠ []) : flatPairs data ≠ [] := by
  cases data with
  | nil => exact absurd rfl h
  | cons p t =>
    rw [flatPairs_cons]
    have : p.2 ≠ [] := hin p (List.mem_cons_self p t)
    cases hp : p.2 with
    | nil => exact absurd hp this
    | cons q tq => simp [hp]

/-! ### Claim theorems -/

/-- C1: the claim says that after each refresh an endpoint's entry is
exactly one of a parsed session table or an errored marker, never both,
and that the post-refresh state depends only on that refresh's fetch
outcome.  The code violates this: a failed refresh keeps the stale
`data` from an earlier success while adding `error`, a later successful
refresh never clears `error`, and the scan then skips the endpoint even
though its table is fresh.  This theorem evaluates the model at the
failing input: refresh a fresh endpoint successfully, then with a
connection error, then successfully again. -/

theorem C1_sticky_error_and_stale_table :
    load_bird_data fetchOk [("SYD", [("rs1", rsFresh "u1")])] =
      .ok [("SYD", [("rs1",
        { url := some "u1", data := some payEx, error := false })])] ∧
    load_bird_data fetchConn
        [("SYD", [("rs1",
          { url := some "u1", data := some payEx, error := false })])] =
      .ok [("SYD", [("rs1",
        { url := some "u1", data := some payEx, error := true })])] ∧
    load_bird_data fetchOk
        [("SYD", [("rs1",
          { url := some "u1", data := some payEx, error := true })])] =
      .ok [("SYD", [("rs1",
        { url := some "u1", data := some payEx, error := true })])] ∧
    scanState 64500
        [("SYD", [("rs1",
          { url := some "u1", data := some payEx, error := true })])] [] =
      .ok [] :=
  ⟨rfl, rfl, rfl, rfl⟩

/-- C2 counterexample: an endpoint with an absent (unset) URL does not
yield an errored entry with the refresh continuing; `requests.get(None)`
raises `MissingSchema`, which is outside the caught tuple, so the whole
refresh aborts and the remaining endpoint is never fetched. -/

theorem C2_counterexample :
    load_bird_data fetchOk stNoUrl = .error .raisedFetch := rfl

/-- C2 amended: for endpoints whose fetches stay inside the caught
tuple — success, `requests.exceptions.ConnectionError`, or
`json.decoder.JSONDecodeError` — and whose URLs are set, the refresh
returns normally, having processed every endpoint: a caught failure
marks that endpoint errored and a success stores its payload, without
aborting the rest.  (An absent URL or any other exception instead
aborts the whole refresh, per the counterexample.) -/

theorem C2_refresh_isolates_caught_failures
    (st : State) (fetch : String → String → Outcome)
    (hurl : urlsPresent st) (htame : fetchTame fetch st) :
    load_bird_data fetch st =
      .ok (mapState (fun loc rs r => refreshPure (fetch loc rs) r) st) ∧
    ∀ p ∈ st, ∀ q ∈ p.2,
      ((fetch p.1 q.1 = .connError ∨ fetch p.1 q.1 = .jsonError) →
        (refreshPure (fetch p.1 q.1) q.2).error = true) ∧
      (∀ pay, fetch p.1 q.1 = .ok pay →
        (refreshPure (fetch p.1 q.1) q.2).data = some pay) := by
  refine ⟨load_eq_map st hurl htame, ?_⟩
  intro p _ q _
  constructor
  · rintro (h | h) <;> rw [h] <;> rfl
  · intro pay h
    rw [h]
    rfl

/-- Witness for C2: one endpoint succeeds, the other refuses the
connection; the refresh returns normally with the failure isolated. -/

theorem C2_witness :
    load_bird_data fetchSplit stPair =
      .ok (mapState (fun loc rs r => refreshPure (fetchSplit loc rs) r) stPair) ∧
    load_bird_data fetchSplit stPair =
      .ok [("SYD", [("rs1", { url := some "u1", data := some payEx, error := false }),
        ("rs2", { url := some "u2", data := none, error := true })])] :=
  ⟨(C2_refresh_isolates_caught_failures stPair fetchSplit
      (by decide) (by decide)).1, rfl⟩

theorem onMessageInt_ne_invalid (fetch : String → String → Outcome)
    (st : State) (n : Int) :
    onMessageInt fetch st n ≠ .ok Reply.invalidInput := by
  unfold onMessageInt
  by_cases h1221 : n = 1221
  · rw [if_pos h1221]
    intro h
    simp at h
  · rw [if_neg h1221]
    cases hc : check_asn fetch st n with
    | error e =>
      intro h
      exact Except.noConfusion h
    | ok resp =>
      show (if resp = [] then Except.ok (Reply.notFound n)
        else match parse resp with
          | .error e => .error e
          | .ok pr => .ok (.table pr.1 pr.2)) ≠ .ok Reply.invalidInput
      by_cases hr : resp = []
      · rw [if_pos hr]
        intro h
        simp at h
      · rw [if_neg hr]
        cases parse resp with
        | error e =>
          intro h
          exact Except.noConfusion h
        | ok pr =>
          intro h
          simp at h

theorem on_message_str (fetch : String → String → Outcome) (st : State)
    (s : String) :
    on_message fetch st (.str s) =
      match pyIntParse s with
      | none => .ok .invalidInput
      | some n =>
        if n = 0 then .ok .invalidInput else onMessageInt fetch st n := rfl

theorem on_message_int (fetch : String → String → Outcome) (st : State)
    (n : Int) :
    on_message fetch st (.int n) = onMessageInt fetch st n := rfl

/-- C3: for a string input, a failed `int` parse yields the invalid-input
reply (for every network behaviour, hence without any fetch), and the
reply never escapes as an exception.  The second half of the claim —
that a successful parse never yields invalid input — fails on the code
(see the counterexample): `on_message` tests the converted value with
`if not asn:`, which conflates the failure sentinel `False` with the
legitimately parsed value `0`.  Amended: a string parsing to a nonzero
integer proceeds exactly as the integer input would and does not yield
the invalid-input reply; a string parsing to `0` is also treated as
invalid input. -/

theorem C3_string_input_behavior (s : String) (st : State)
    (fetch : String → String → Outcome) :
    (pyIntParse s = none →
      on_message fetch st (.str s) = .ok .invalidInput) ∧
    (∀ n : Int, pyIntParse s = some n → n ≠ 0 →
      on_message fetch st (.str s) = onMessageInt fetch st n ∧
      on_message fetch st (.str s) ≠ .ok .invalidInput) ∧
    (pyIntParse s = some 0 →
      on_message fetch st (.str s) = .ok .invalidInput) := by
  refine ⟨?_, ?_, ?_⟩
  · intro hn
    rw [on_message_str, hn]
  · intro n hn hz
    rw [on_message_str, hn]
    show (if n = 0 then Except.ok Reply.invalidInput
        else onMessageInt fetch st n) = onMessageInt fetch st n ∧
      (if n = 0 then Except.ok Reply.invalidInput
        else onMessageInt fetch st n) ≠ .ok Reply.invalidInput
    rw [if_neg hz]
    exact ⟨rfl, onMessageInt_ne_invalid fetch st n⟩
  · intro hn
    rw [on_message_str, hn]
    rfl

/-- Counterexample to C3 as stated: the string `"0"` parses successfully
with Python's `int`, yet the lookup returns the invalid-input reply
rather than proceeding to refresh and scan. -/

theorem C3_counterexample :
    pyIntParse "0" = some 0 ∧
    on_message fetchOk stPair (.str "0") = .ok .invalidInput :=
  ⟨rfl, rfl⟩

/-- Witness for C3: `"abc"` fails to parse and yields invalid input;
`"5"` parses to the nonzero 5 and proceeds as the integer 5 would. -/

theorem C3_witness :
    on_message fetchOk stPair (.str "abc") = .ok .invalidInput ∧
    on_message fetchOk stPair (.str "5") = onMessageInt fetchOk stPair 5 :=
  ⟨(C3_string_input_behavior "abc" stPair fetchOk).1 (by decide),
   ((C3_string_input_behavior "5" stPair fetchOk).2.1 5 (by decide) (by decide)).1⟩

/-- C5 amended: for every string that Python's `int` parses to a nonzero
integer `n`, the lookup on the string equals the lookup on `n`, for
every snapshot state and network behaviour.  As stated the claim also
covers strings parsing to `0`, where it fails (see the counterexample):
`"0"` yields invalid input while the integer `0` proceeds to the scan. -/

theorem C5_string_int_agree (s : String) (n : Int) (st : State)
    (fetch : String → String → Outcome)
    (hp : pyIntParse s = some n) (hz : n ≠ 0) :
    on_message fetch st (.str s) = on_message fetch st (.int n) := by
  rw [on_message_str, on_message_int, hp]
  show (if n = 0 then Except.ok Reply.invalidInput
      else onMessageInt fetch st n) = onMessageInt fetch st n
  rw [if_neg hz]

/-- Counterexample to C5 as stated: `"0"` is a decimal-integer string,
but the string lookup returns invalid input while the integer lookup
returns the not-found advisory — different results. -/

theorem C5_counterexample :
    on_message fetchOk stPair (.str "0") = .ok .invalidInput ∧
    on_message fetchOk stPair (.int 0) = .ok (.notFound 0) ∧
    Reply.invalidInput ≠ Reply.notFound 0 :=
  ⟨rfl, rfl, by decide⟩

/-- Witness for C5: `"64500"` and `64500` give identical results. -/

theorem C5_witness :
    on_message fetchOk stPair (.str "64500") =
      on_message fetchOk stPair (.int 64500) :=
  C5_string_int_agree "64500" 64500 stPair fetchOk (by decide) (by decide)

/-- C4: for any state with distinct dict keys whose refresh returns a
snapshot, if the requested ASN appears as some session's `neighbor_as`
in at least one non-errored endpoint's table of that snapshot, the
lookup returns `found` with exactly the rows of `claimRows`: one row per
(location, route-server) pair whose table contains the ASN — the first
matching session per pair — and no row for any other pair; if the ASN
appears on no non-errored endpoint, the lookup returns `notFound`. -/

theorem C4_lookup_found_rows (fetch : String → String → Outcome)
    (st snap : State) (checked : Int) (hk : keysDistinct st)
    (hl : load_bird_data fetch st = .ok snap) :
    (asnPresent checked snap →
      lookup_asn fetch st checked = .ok (.found (claimRows checked snap)) ∧
      claimRows checked snap ≠ []) ∧
    (¬asnPresent checked snap →
      lookup_asn fetch st checked = .ok .notFound) := by
  have hlk := lookup_asn_ok checked hk hl
  constructor
  · intro hpres
    have hne := (claimRows_ne_nil_iff checked snap).mpr hpres
    rw [if_neg hne] at hlk
    exact ⟨hlk, hne⟩
  · intro hnp
    have hnil : claimRows checked snap = [] := by
      by_contra hc
      exact hnp ((claimRows_ne_nil_iff checked snap).mp hc)
    rw [if_pos hnil] at hlk
    exact hlk

/-- Witness for C4: ASN 64500 is present on SYD/rs1 only; the lookup
finds exactly that one row, and ASN 9999 is absent, yielding notFound. -/

theorem C4_witness :
    (lookup_asn fetchSplit stPair 64500 =
        .ok (.found (claimRows 64500 snapPair)) ∧
      claimRows 64500 snapPair ≠ []) ∧
    claimRows 64500 snapPair =
      [("SYD", [("rs1",
        { asn := 64500, name := some "ExampleNet",
          state := some "Established" })])] ∧
    lookup_asn fetchSplit stPair 9999 = .ok .notFound :=
  ⟨(C4_lookup_found_rows fetchSplit stPair snapPair 64500
      (by decide) rfl).1 (by decide),
   rfl,
   (C4_lookup_found_rows fetchSplit stPair snapPair 9999
      (by decide) rfl).2 (by decide)⟩

/-- C6: for any nonempty match dict handed to `parse` (every `found`
result has at least one row), `parse` returns the City / Route Server /
BGP State rows, one per (location, route-server) entry in iteration
order, together with the `name` field of the last row in that order as
the caption. -/

theorem C6_parse_rows_and_name (data : Resp) (h : flatPairs data ≠ []) :
    parse data = .ok (claimTable data, claimName data) :=
  parse_spec h

/-- Witness for C6: on a concrete two-row dict the table lists both rows
in order and the caption is the last row's name. -/

theorem C6_witness :
    parse respSample = .ok (claimTable respSample, claimName respSample) ∧
    claimTable respSample =
      [("SYD", "rs1", some "Established"), ("MEL", "rs1", some "Idle")] ∧
    claimName respSample = some "BarNet" :=
  ⟨C6_parse_rows_and_name respSample (by decide), by decide, by decide⟩

/-- C7: on any state satisfying the data-model invariant that no

endpoint carries a table and the errored marker at once, the `asns` view
maps an ASN to the description of its last encounter over the populated
(non-errored) endpoints in iteration order, paired with the list of one
`loc - rs` label per encounter in encounter order; ASNs with no
encounter (including sessions with an absent `neighbor_as`) are absent. -/

theorem C7_asn_index (st : State) (hNB : neverBoth st) (a : Int) :
    alistFind a (asns st) =
      match lastO (claimStEncs a st) with
      | none => none
      | some e => some (e.1, (claimStEncs a st).map (fun x => x.2)) := by
  rw [asns_find, encFold_spec, ← claimStEncs_eq hNB]
  cases lastO (claimStEncs a st) <;> rfl

/-- Witness for C7: the ASN seen on L1 as Foo and later on L2 as Bar

ends with description Bar and both labels in order. -/

theorem C7_witness :
    alistFind 64500 (asns stFooBar) =
      some (some "Bar", ["L1 - rs1", "L2 - rs1"]) := by
  rw [C7_asn_index stFooBar (by decide) 64500]
  decide

/-- C8: the `ips` view maps an IP to the (description, location) pair of
its last encounter over the populated endpoints' session tables in
iteration order — each later encounter replaces the entry entirely —
and IPs with no encounter (including sessions with an absent
`neighbor_address`) are absent. -/

theorem C8_ip_index (st : State) (ip : String) :
    alistFind ip (ips st) = lastO (ipStEncs ip st) :=
  ips_find ip st

theorem alistFind_some_mem {κ α : Type} [DecidableEq κ] {k : κ}
    {l : List (κ × α)} {v : α} (h : alistFind k l = some v) : (k, v) ∈ l := by
  induction l with
  | nil => simp [alistFind] at h
  | cons q t ih =>
    rw [alistFind_cons] at h
    by_cases hq : q.1 = k
    · rw [if_pos hq, Option.some.injEq] at h
      rcases q with ⟨a, b⟩
      simp only at hq h
      exact List.mem_cons.mpr (Or.inl (by rw [hq, h]))
    · rw [if_neg hq] at h
      exact List.mem_cons_of_mem q (ih h)

theorem alistFind_map {κ α β : Type} [DecidableEq κ] (g : κ → α → β)
    (l : List (κ × α)) (k : κ) :
    alistFind k (l.map (fun q => (q.1, g q.1 q.2))) =
      (alistFind k l).map (g k) := by
  induction l with
  | nil => rfl
  | cons q t ih =>
    simp only [List.map_cons, alistFind_cons]
    by_cases hq : q.1 = k
    · subst hq
      simp
    · simp only [if_neg hq, ih]

theorem mapState_find (f : String → String → RS → RS) (st : State)
    (loc : String) :
    alistFind loc (mapState f st) =
      (alistFind loc st).map
        (fun rsl => rsl.map (fun q => (q.1, f loc q.1 q.2))) := by
  induction st with
  | nil => rfl
  | cons p t ih =>
    simp only [mapState, List.map_cons, alistFind_cons]
    by_cases hq : p.1 = loc
    · subst hq
      simp
    · simp only [if_neg hq]
      simpa [mapState] using ih

/-- C9: if a refresh from a well-keyed state with all URLs set stays
inside the caught exception tuple, the endpoint at (locA, rsA) returns a
malformed (non-JSON) body, and the endpoint at (locB, rsB) — not
previously errored — returns a table containing the requested ASN, then
the lookup still returns `found`, its rows contain a (locB, rsB) entry,
and no (locA, rsA) row appears: the malformed endpoint is skipped
without corrupting the result. -/

theorem C9_malformed_endpoint_isolated
    (fetch : String → String → Outcome) (st : State)
    (locA rsA locB rsB : String) (rslA rslB : List (String × RS))
    (rA rB : RS) (pB : Payload) (asn : Int)
    (hk : keysDistinct st) (hurl : urlsPresent st) (htame : fetchTame fetch st)
    (hA1 : alistFind locA st = some rslA)
    (hA2 : alistFind rsA rslA = some rA)
    (hAout : fetch locA rsA = .jsonError)
    (hB1 : alistFind locB st = some rslB)
    (hB2 : alistFind rsB rslB = some rB)
    (hBout : fetch locB rsB = .ok pB)
    (hBerr : rB.error = false)
    (hasn : ∃ e ∈ pB.protocols, e.2.neighbor_as = some asn) :
    ∃ rows : Resp,
      lookup_asn fetch st asn = .ok (.found rows) ∧
      (∃ rrows, alistFind locB rows = some rrows ∧
        (alistFind rsB rrows).isSome = true) ∧
      (∀ rrows, alistFind locA rows = some rrows →
        alistFind rsA rrows = none) := by
  have hl := load_eq_map st hurl htame
  have hkd := load_ok_keysDistinct hl hk
  have hB1' : alistFind locB
      (mapState (fun loc rs r => refreshPure (fetch loc rs) r) st) =
      some (rslB.map (fun q => (q.1, refreshPure (fetch locB q.1) q.2))) := by
    have h := mapState_find (fun loc rs r => refreshPure (fetch loc rs) r) st locB
    rw [hB1] at h
    exact h
  have hB2' : alistFind rsB
      (rslB.map (fun q => (q.1, refreshPure (fetch locB q.1) q.2))) =
      some (refreshPure (fetch locB rsB) rB) := by
    have h := alistFind_map (fun rs r => refreshPure (fetch locB rs) r) rslB rsB
    rw [hB2] at h
    exact h
  have hBdata : (refreshPure (fetch locB rsB) rB).data = some pB := by
    rw [hBout]
    rfl
  have hBerr' : (refreshPure (fetch locB rsB) rB).error = false := by
    rw [hBout]
    exact hBerr
  have hBmem := alistFind_some_mem hB1'
  have hBmem2 := alistFind_some_mem hB2'
  have hpres : asnPresent asn
      (mapState (fun loc rs r => refreshPure (fetch loc rs) r) st) :=
    ⟨_, hBmem, _, hBmem2, hBerr', pB, hBdata, hasn⟩
  refine ⟨claimRows asn
    (mapState (fun loc rs r => refreshPure (fetch loc rs) r) st), ?_, ?_, ?_⟩
  · have hlk := lookup_asn_ok asn hk hl
    rw [if_neg ((claimRows_ne_nil_iff asn _).mpr hpres)] at hlk
    exact hlk
  · have hfind := @claimRows_find asn _ hkd.1 locB
    rw [hB1'] at hfind
    have hfind' : alistFind locB (claimRows asn
        (mapState (fun loc rs r => refreshPure (fetch loc rs) r) st)) =
        (if claimRowsRSL asn
            (rslB.map (fun q => (q.1, refreshPure (fetch locB q.1) q.2))) = []
          then none
          else some (claimRowsRSL asn
            (rslB.map (fun q => (q.1, refreshPure (fetch locB q.1) q.2))))) :=
      hfind
    have hrsne : claimRowsRSL asn
        (rslB.map (fun q => (q.1, refreshPure (fetch locB q.1) q.2))) ≠ [] := by
      intro hnil
      have hall := (claimRowsRSL_eq_nil_iff asn _).mp hnil
      have hthis := hall _ hBmem2
      rw [rsMatchRow_eq_none_iff] at hthis
      exact hthis ⟨hBerr', pB, hBdata, hasn⟩
    rw [if_neg hrsne] at hfind'
    refine ⟨_, hfind', ?_⟩
    have hinnernd := hkd.2 _ hBmem
    have hf2 := @claimRowsRSL_find asn _ hinnernd rsB
    rw [hB2'] at hf2
    have hf2' : alistFind rsB (claimRowsRSL asn
        (rslB.map (fun q => (q.1, refreshPure (fetch locB q.1) q.2)))) =
        rsMatchRow asn (refreshPure (fetch locB rsB) rB) := hf2
    rw [hf2', rsMatchRow_isSome_iff]
    exact ⟨hBerr', pB, hBdata, hasn⟩
  · intro rrows hr
    have hA1' : alistFind locA
        (mapState (fun loc rs r => refreshPure (fetch loc rs) r) st) =
        some (rslA.map (fun q => (q.1, refreshPure (fetch locA q.1) q.2))) := by
      have h := mapState_find (fun loc rs r => refreshPure (fetch loc rs) r) st locA
      rw [hA1] at h
      exact h
    have hA2' : alistFind rsA
        (rslA.map (fun q => (q.1, refreshPure (fetch locA q.1) q.2))) =
        some (refreshPure (fetch locA rsA) rA) := by
      have h := alistFind_map (fun rs r => refreshPure (fetch locA rs) r) rslA rsA
      rw [hA2] at h
      exact h
    have hfind := @claimRows_find asn _ hkd.1 locA
    rw [hA1'] at hfind
    have hfind' : alistFind locA (claimRows asn
        (mapState (fun loc rs r => refreshPure (fetch loc rs) r) st)) =
        (if claimRowsRSL asn
            (rslA.map (fun q => (q.1, refreshPure (fetch locA q.1) q.2))) = []
          then none
          else some (claimRowsRSL asn
            (rslA.map (fun q => (q.1, refreshPure (fetch locA q.1) q.2))))) :=
      hfind
    rw [hfind'] at hr
    by_cases hc : claimRowsRSL asn
        (rslA.map (fun q => (q.1, refreshPure (fetch locA q.1) q.2))) = []
    · rw [if_pos hc] at hr
      simp at hr
    · rw [if_neg hc, Option.some.injEq] at hr
      rw [← hr]
      have hinnernd := hkd.2 _ (alistFind_some_mem hA1')
      have hf2 := @claimRowsRSL_find asn _ hinnernd rsA
      rw [hA2'] at hf2
      have hf2' : alistFind rsA (claimRowsRSL asn
          (rslA.map (fun q => (q.1, refreshPure (fetch locA q.1) q.2)))) =
          rsMatchRow asn (refreshPure (fetch locA rsA) rA) := hf2
      rw [hf2']
      apply rsMatchRow_of_error
      rw [hAout]
      rfl

/-- Witness for C9: SYD returns a malformed body, MEL a table containing
64500; the lookup finds the MEL row and no SYD row. -/

theorem C9_witness :
    ∃ rows : Resp,
      lookup_asn fetchMix stTwo 64500 = .ok (.found rows) ∧
      (∃ rrows, alistFind "MEL" rows = some rrows ∧
        (alistFind "rs1" rrows).isSome = true) ∧
      (∀ rrows, alistFind "SYD" rows = some rrows →
        alistFind "rs1" rrows = none) :=
  C9_malformed_endpoint_isolated fetchMix stTwo "SYD" "rs1" "MEL" "rs1"
    [("rs1", rsFresh "u1")] [("rs1", rsFresh "u2")] (rsFresh "u1")
    (rsFresh "u2") payEx 64500 (by decide) (by decide) (by decide)
    rfl rfl rfl rfl rfl rfl rfl (by decide)

/-- C10 counterexample: with one endpoint's URL unset, `on_message`
raises (the uncaught `MissingSchema` propagates out of the refresh)
instead of returning a (message, caption) pair. -/

theorem C10_counterexample :
    on_message fetchOk stNoUrl (.int 64500) = .error .raisedFetch := rfl

/-- C10 amended: whenever the refresh cannot raise — all endpoint URLs
set and every fetch outcome inside the caught tuple — `on_message`
returns a reply pair for every input (and in particular the table
renderer is only reached with a nonempty match dict, so the final-row
name read is defined).  As stated, the claim fails when the refresh
raises, per the counterexample. -/

theorem C10_on_message_returns_reply (fetch : String → String → Outcome)
    (st : State) (input : AsnInput) (hk : keysDistinct st)
    (hurl : urlsPresent st) (htame : fetchTame fetch st) :
    ∃ r : Reply, on_message fetch st input = .ok r := by
  have hl := load_eq_map st hurl htame
  have hint : ∀ n : Int, ∃ r : Reply, onMessageInt fetch st n = .ok r := by
    intro n
    unfold onMessageInt
    by_cases h1221 : n = 1221
    · rw [if_pos h1221]
      exact ⟨.cheeky, rfl⟩
    · rw [if_neg h1221, check_asn_ok n hk hl]
      show ∃ r : Reply,
        (if claimRows n
            (mapState (fun loc rs r => refreshPure (fetch loc rs) r) st) = []
          then Except.ok (Reply.notFound n)
          else match parse (claimRows n
              (mapState (fun loc rs r => refreshPure (fetch loc rs) r) st)) with
            | .error e => .error e
            | .ok pr => .ok (.table pr.1 pr.2)) = .ok r
      by_cases hr : claimRows n
          (mapState (fun loc rs r => refreshPure (fetch loc rs) r) st) = []
      · rw [if_pos hr]
        exact ⟨.notFound n, rfl⟩
      · rw [if_neg hr]
        rw [parse_spec (flatPairs_ne_nil hr (claimRows_inners_ne_nil n _))]
        exact ⟨.table (claimTable _) (claimName _), rfl⟩
  cases input with
  | int n => exact hint n
  | str s =>
    rw [on_message_str]
    cases hp : pyIntParse s with
    | none => exact ⟨.invalidInput, rfl⟩
    | some n =>
      by_cases hz : n = 0
      · subst hz
        exact ⟨.invalidInput, by rfl⟩
      · show ∃ r : Reply,
          (if n = 0 then Except.ok Reply.invalidInput
            else onMessageInt fetch st n) = .ok r
        rw [if_neg hz]
        exact hint n

/-- Witness for C10: a caught per-endpoint failure still yields a reply
pair. -/

theorem C10_witness :
    ∃ r : Reply, on_message fetchSplit stPair (.str "64500") = .ok r :=
  C10_on_message_returns_reply fetchSplit stPair (.str "64500")
    (by decide) (by decide) (by decide)
